import Mathlib

/-!
Shallow embedding of `src/Software/lib/StrokeEngine/src/pattern.h` (the OSSM
stroke-pattern core): the `Pattern` base class, its nine concrete variants, and
the numeric utilities they call.  C++ `float`/`double` arithmetic is modelled
by exact rational arithmetic over `ℚ`; C++ `int` by `ℤ`; the float-to-int
conversion `int(x)` (truncation toward zero) by `ftrunc`; C++ integer division
(truncation toward zero) by `Int.tdiv`.  The `millis()`-based delay gate is
modelled by passing the current time explicitly (`now : ℤ`) where a claim
depends on the gate's arithmetic (StopNGo), and as a Boolean "still delayed"
input where it does not (Slammin, Knot, whose delay durations go through a real
square root and feed no verified claim).
-/

/-- Truncation toward zero of a rational, the semantics of C++ `int(x)` for a
float `x` (in range). -/
def ftrunc (q : ℚ) : ℤ := if 0 ≤ q then ⌊q⌋ else ⌈q⌉

theorem ftrunc_le_of_le {q : ℚ} {n : ℤ} (h : q ≤ (n : ℚ)) : ftrunc q ≤ n := by
  unfold ftrunc
  split
  · exact_mod_cast (Int.floor_mono h).trans_eq (Int.floor_intCast n)
  · exact_mod_cast (Int.ceil_mono h).trans_eq (Int.ceil_intCast n)

theorem le_ftrunc_of_le {n : ℤ} {q : ℚ} (h : (n : ℚ) ≤ q) : n ≤ ftrunc q := by
  unfold ftrunc
  split
  · exact le_of_eq_of_le (Int.floor_intCast n).symm (Int.floor_mono h)
  · exact le_of_eq_of_le (Int.ceil_intCast n).symm (Int.ceil_mono h)

theorem ftrunc_intCast (n : ℤ) : ftrunc (n : ℚ) = n :=
  le_antisymm (ftrunc_le_of_le le_rfl) (le_ftrunc_of_le le_rfl)

theorem ftrunc_zero : ftrunc 0 = 0 := by
  simpa using ftrunc_intCast 0

/-- The Arduino `map` function (external library dependency of `pattern.h`):
`(x - in_min) * (out_max - out_min) / (in_max - in_min) + out_min` over `long`,
with C integer division (truncation toward zero). -/
def arduinoMap (x inMin inMax outMin outMax : ℤ) : ℤ :=
  Int.tdiv ((x - inMin) * (outMax - outMin)) (inMax - inMin) + outMin

/-- Modelled from the spec: `fscale` lives in `PatternMath.h`, which is not
under `src/`.  Per spec §4.1 it maps `value` from `[inputMin, inputMax]` to
`[outputBegin, outputEnd]`, clamping the normalized fraction to `[0, 1]`
before applying the curve, and `curve = 0` degenerates to plain linear
interpolation.  Every `fscale` call in `pattern.h` passes `curve = 0.0`, so
only that linear case is embedded (the curve argument is dropped). -/
def fscale (originalMin originalMax newBegin newEnd inputValue : ℚ) : ℚ :=
  let clamped := max 0 (min 1 ((inputValue - originalMin) / (originalMax - originalMin)))
  newBegin + clamped * (newEnd - newBegin)

/-- `motionParameter`: the struct returned by every `nextTarget` call.
The C++ field `stroke` is the absolute target position of the move. -/
structure MotionParameter where
  stroke : ℤ
  speed : ℤ
  acceleration : ℤ
  skip : Bool
deriving DecidableEq, Repr

/-- The fields of the C++ `Pattern` base class (minus the name string, which no
claim touches).  `stroke`, `depth`, `timeOfStroke` are uninitialized in C++ and
are therefore parameters of the initial state. -/
structure PatternState where
  stroke : ℤ
  depth : ℤ
  timeOfStroke : ℚ
  sensation : ℚ
  index : ℤ
  nextMove : MotionParameter
  startDelayMillis : ℤ
  delayInMillis : ℤ
  maxSpeed : ℕ
  maxAcceleration : ℕ
  stepsPerMM : ℕ
deriving DecidableEq, Repr

/-- The C++ member initializers of `Pattern` (`_sensation = 0.0`, `_index = -1`,
`_nextMove = {0, 0, 0, false}`, delays and limits zero); `stroke`, `depth`,
`timeOfStroke` carry whatever indeterminate values the object starts with. -/
def patternInit (stroke depth : ℤ) (timeOfStroke : ℚ) : PatternState :=
  { stroke := stroke, depth := depth, timeOfStroke := timeOfStroke,
    sensation := 0, index := -1,
    nextMove := { stroke := 0, speed := 0, acceleration := 0, skip := false },
    startDelayMillis := 0, delayInMillis := 0,
    maxSpeed := 0, maxAcceleration := 0, stepsPerMM := 0 }

namespace Pattern

/-- `Pattern::setSpeedLimit`: stores the three limits, nothing else. -/
def setSpeedLimit (maxSpeed maxAcceleration stepsPerMM : ℕ) (s : PatternState) :
    PatternState :=
  { s with maxSpeed := maxSpeed, maxAcceleration := maxAcceleration,
           stepsPerMM := stepsPerMM }

/-- `Pattern::_isStillDelayed()`: true while `millis() <= start + delay`. -/
def isStillDelayed (s : PatternState) (now : ℤ) : Bool :=
  !(decide (now > s.startDelayMillis + s.delayInMillis))

end Pattern

/-- The position invariant claimed by the spec for every returned command. -/
def inRange (depth stroke target : ℤ) : Prop :=
  depth - stroke ≤ target ∧ target ≤ depth

namespace SimpleStroke

/-- `SimpleStroke::setTimeOfStroke`: halves the cycle time. -/
def setTimeOfStroke (speed : ℚ) (s : PatternState) : PatternState :=
  { s with timeOfStroke := 0.5 * speed }

/-- `SimpleStroke::nextTarget`. -/
def nextTarget (s : PatternState) (index : ℕ) : MotionParameter × PatternState :=
  let speed := ftrunc (1.5 * (s.stroke : ℚ) / s.timeOfStroke)
  let acceleration := ftrunc (3.0 * (speed : ℚ) / s.timeOfStroke)
  let target := if index % 2 = 1 then s.depth - s.stroke else s.depth
  let m : MotionParameter :=
    { stroke := target, speed := speed, acceleration := acceleration,
      skip := s.nextMove.skip }
  (m, { s with nextMove := m, index := (index : ℤ) })

end SimpleStroke

/-- State of `TeasingPounding`: the base fields plus the three derived times
(all `= 1.0` by member initializer). -/
structure TeasingPoundingState extends PatternState where
  timeOfFastStroke : ℚ
  timeOfInStroke : ℚ
  timeOfOutStroke : ℚ
deriving DecidableEq, Repr

namespace TeasingPounding

/-- `TeasingPounding::_updateStrokeTiming`. -/
def updateStrokeTiming (s : TeasingPoundingState) : TeasingPoundingState :=
  let fast := (0.5 * s.timeOfStroke) / fscale 0.0 100.0 1.0 5.0 |s.sensation|
  if s.sensation > 0.0 then
    { s with timeOfFastStroke := fast, timeOfInStroke := fast,
             timeOfOutStroke := s.timeOfStroke - fast }
  else
    { s with timeOfFastStroke := fast, timeOfOutStroke := fast,
             timeOfInStroke := s.timeOfStroke - fast }

/-- `TeasingPounding::setSensation`. -/
def setSensation (sensation : ℚ) (s : TeasingPoundingState) : TeasingPoundingState :=
  updateStrokeTiming { s with sensation := sensation }

/-- `TeasingPounding::setTimeOfStroke` (no halving here). -/
def setTimeOfStroke (speed : ℚ) (s : TeasingPoundingState) : TeasingPoundingState :=
  updateStrokeTiming { s with timeOfStroke := speed }

/-- `TeasingPounding::nextTarget`. -/
def nextTarget (s : TeasingPoundingState) (index : ℕ) :
    MotionParameter × TeasingPoundingState :=
  let m : MotionParameter :=
    if index % 2 = 1 then
      let speed := ftrunc (1.5 * (s.stroke : ℚ) / s.timeOfOutStroke)
      { stroke := s.depth - s.stroke, speed := speed,
        acceleration := ftrunc (3.0 * (speed : ℚ) / s.timeOfOutStroke),
        skip := s.nextMove.skip }
    else
      let speed := ftrunc (1.5 * (s.stroke : ℚ) / s.timeOfInStroke)
      { stroke := s.depth, speed := speed,
        acceleration := ftrunc (3.0 * (speed : ℚ) / s.timeOfInStroke),
        skip := s.nextMove.skip }
  (m, { s with nextMove := m, index := (index : ℤ) })

end TeasingPounding

/-- State of `RoboStroke`: base fields plus `_x = 1.0/3.0`. -/
structure RoboStrokeState extends PatternState where
  x : ℚ
deriving DecidableEq, Repr

namespace RoboStroke

/-- `RoboStroke::setTimeOfStroke`: halves the cycle time. -/
def setTimeOfStroke (speed : ℚ) (s : RoboStrokeState) : RoboStrokeState :=
  { s with timeOfStroke := 0.5 * speed }

/-- `RoboStroke::setSensation`: scales sensation into `x ∈ [0.05, 0.5]`,
`x = 1/3` at zero. -/
def setSensation (sensation : ℚ) (s : RoboStrokeState) : RoboStrokeState :=
  let x := if sensation ≥ 0 then fscale 0.0 100.0 (1/3) 0.5 sensation
           else fscale 0.0 100.0 (1/3) 0.05 (-sensation)
  { s with sensation := sensation, x := x }

/-- `RoboStroke::nextTarget`.  Note the acceleration is computed from the
float `speed`, not the truncated one. -/
def nextTarget (s : RoboStrokeState) (index : ℕ) :
    MotionParameter × RoboStrokeState :=
  let speedQ := (s.stroke : ℚ) / ((1 - s.x) * s.timeOfStroke)
  let m : MotionParameter :=
    { stroke := if index % 2 = 1 then s.depth - s.stroke else s.depth,
      speed := ftrunc speedQ,
      acceleration := ftrunc (speedQ / (s.x * s.timeOfStroke)),
      skip := s.nextMove.skip }
  (m, { s with nextMove := m, index := (index : ℤ) })

end RoboStroke

/-- State of `HalfnHalf`: like TeasingPounding plus the `_half = true` flag. -/
structure HalfnHalfState extends PatternState where
  timeOfFastStroke : ℚ
  timeOfInStroke : ℚ
  timeOfOutStroke : ℚ
  half : Bool
deriving DecidableEq, Repr

namespace HalfnHalf

/-- `HalfnHalf::_updateStrokeTiming` (identical to TeasingPounding's). -/
def updateStrokeTiming (s : HalfnHalfState) : HalfnHalfState :=
  let fast := (0.5 * s.timeOfStroke) / fscale 0.0 100.0 1.0 5.0 |s.sensation|
  if s.sensation > 0.0 then
    { s with timeOfFastStroke := fast, timeOfInStroke := fast,
             timeOfOutStroke := s.timeOfStroke - fast }
  else
    { s with timeOfFastStroke := fast, timeOfOutStroke := fast,
             timeOfInStroke := s.timeOfStroke - fast }

/-- `HalfnHalf::setSensation`. -/
def setSensation (sensation : ℚ) (s : HalfnHalfState) : HalfnHalfState :=
  updateStrokeTiming { s with sensation := sensation }

/-- `HalfnHalf::setTimeOfStroke`. -/
def setTimeOfStroke (speed : ℚ) (s : HalfnHalfState) : HalfnHalfState :=
  updateStrokeTiming { s with timeOfStroke := speed }

/-- The half flag the call at `index` acts on (`index == 0` forces it true). -/
def halfFlag (s : HalfnHalfState) (index : ℕ) : Bool :=
  if index = 0 then true else s.half

/-- The stroke length used by the call at `index`: halved (C++ integer
division) while the half flag is set. -/
def strokeLen (s : HalfnHalfState) (index : ℕ) : ℤ :=
  if halfFlag s index then Int.tdiv s.stroke 2 else s.stroke

/-- `HalfnHalf::nextTarget`: the half flag toggles on every outward move. -/
def nextTarget (s : HalfnHalfState) (index : ℕ) :
    MotionParameter × HalfnHalfState :=
  let half := halfFlag s index
  let stroke := strokeLen s index
  if index % 2 = 1 then
    let speed := ftrunc (1.5 * (stroke : ℚ) / s.timeOfOutStroke)
    let m : MotionParameter :=
      { stroke := s.depth - s.stroke, speed := speed,
        acceleration := ftrunc (3.0 * (speed : ℚ) / s.timeOfOutStroke),
        skip := s.nextMove.skip }
    (m, { s with nextMove := m, half := !half, index := (index : ℤ) })
  else
    let speed := ftrunc (1.5 * (stroke : ℚ) / s.timeOfInStroke)
    let m : MotionParameter :=
      { stroke := (s.depth - s.stroke) + stroke, speed := speed,
        acceleration := ftrunc (3.0 * (speed : ℚ) / s.timeOfInStroke),
        skip := s.nextMove.skip }
    (m, { s with nextMove := m, half := half, index := (index : ℤ) })

end HalfnHalf

/-- State of `Deeper`: base fields plus `_countStrokesForRamp = 2`. -/
structure DeeperState extends PatternState where
  countStrokesForRamp : ℤ
deriving DecidableEq, Repr

namespace Deeper

/-- `Deeper::setTimeOfStroke`: halves the cycle time. -/
def setTimeOfStroke (speed : ℚ) (s : DeeperState) : DeeperState :=
  { s with timeOfStroke := 0.5 * speed }

/-- `Deeper::setSensation`: maps sensation (as a C `long`, hence truncated)
into a ramp length in `[2, 32]`, `11` at zero. -/
def setSensation (sensation : ℚ) (s : DeeperState) : DeeperState :=
  let c := if sensation < 0 then arduinoMap (ftrunc sensation) (-100) 0 2 11
           else arduinoMap (ftrunc sensation) 0 100 11 32
  { s with sensation := sensation, countStrokesForRamp := c }

/-- The cycling 1-based ramp position `(index / 2) % _countStrokesForRamp + 1`. -/
def cycleIndex (s : DeeperState) (index : ℕ) : ℤ :=
  ((index / 2 : ℕ) : ℤ) % s.countStrokesForRamp + 1

/-- The per-stroke amplitude `slope * cycleIndex` with
`slope = _stroke / _countStrokesForRamp` (C++ integer division). -/
def amplitude (s : DeeperState) (index : ℕ) : ℤ :=
  Int.tdiv s.stroke s.countStrokesForRamp * cycleIndex s index

/-- `Deeper::nextTarget`. -/
def nextTarget (s : DeeperState) (index : ℕ) : MotionParameter × DeeperState :=
  let amp := amplitude s index
  let speed := ftrunc (1.5 * (amp : ℚ) / s.timeOfStroke)
  let m : MotionParameter :=
    { stroke := if index % 2 = 1 then s.depth - s.stroke
                else (s.depth - s.stroke) + amp,
      speed := speed,
      acceleration := ftrunc (3.0 * (speed : ℚ) / s.timeOfStroke),
      skip := s.nextMove.skip }
  (m, { s with nextMove := m, index := (index : ℤ) })

end Deeper

/-- State of `StopNGo`: base fields plus the series bookkeeping
(`_numberOfStrokes = 5`, `_strokeSeriesIndex = 1`, `_strokeIndex = 0`,
`_countStrokesUp = true`). -/
structure StopNGoState extends PatternState where
  numberOfStrokes : ℤ
  strokeSeriesIndex : ℤ
  strokeIndex : ℤ
  countStrokesUp : Bool
deriving DecidableEq, Repr

namespace StopNGo

/-- `StopNGo::setTimeOfStroke`: halves the cycle time. -/
def setTimeOfStroke (speed : ℚ) (s : StopNGoState) : StopNGoState :=
  { s with timeOfStroke := 0.5 * speed }

/-- `StopNGo::setSensation`: `_updateDelay(map(sensation, -100, 100, 100, 10000))`
(the float is converted to `long` by truncation). -/
def setSensation (sensation : ℚ) (s : StopNGoState) : StopNGoState :=
  { s with sensation := sensation,
           delayInMillis := arduinoMap (ftrunc sensation) (-100) 100 100 10000 }

/-- `StopNGo::nextTarget`; `now` is the value `millis()` would return. -/
def nextTarget (s : StopNGoState) (index : ℕ) (now : ℤ) :
    MotionParameter × StopNGoState :=
  let speed := ftrunc (1.5 * (s.stroke : ℚ) / s.timeOfStroke)
  let acceleration := ftrunc (3.0 * (speed : ℚ) / s.timeOfStroke)
  if now > s.startDelayMillis + s.delayInMillis then
    if index % 2 = 1 then
      let m : MotionParameter :=
        { stroke := s.depth - s.stroke, speed := speed,
          acceleration := acceleration, skip := false }
      if s.strokeIndex ≥ s.strokeSeriesIndex then
        -- completion of a stroke series: reset, flip direction at the ends,
        -- step the series length, start the pause
        let up1 := if s.strokeSeriesIndex ≥ s.numberOfStrokes then false
                   else s.countStrokesUp
        let up2 := if s.strokeSeriesIndex ≤ 1 then true else up1
        let ssi := if up2 then s.strokeSeriesIndex + 1 else s.strokeSeriesIndex - 1
        (m, { s with nextMove := m, index := (index : ℤ), strokeIndex := 0,
                     countStrokesUp := up2, strokeSeriesIndex := ssi,
                     startDelayMillis := now })
      else
        (m, { s with nextMove := m, index := (index : ℤ) })
    else
      let m : MotionParameter :=
        { stroke := s.depth, speed := speed,
          acceleration := acceleration, skip := false }
      (m, { s with nextMove := m, index := (index : ℤ),
                   strokeIndex := s.strokeIndex + 1 })
  else
    let m : MotionParameter :=
      { s.nextMove with speed := speed, acceleration := acceleration,
                        skip := true }
    (m, { s with nextMove := m, index := (index : ℤ) })

/-- The three internal stroke counters of `StopNGo`. -/
def countersOf (s : StopNGoState) : ℤ × ℤ × Bool :=
  (s.strokeIndex, s.strokeSeriesIndex, s.countStrokesUp)

end StopNGo

/-- State of `Insist`: base fields plus `_speed = 0`, `_acceleration = 0`,
`_realStroke = 0`, `_strokeFraction = 1.0`, `_strokeInFront = false`. -/
structure InsistState extends PatternState where
  speed : ℤ
  acceleration : ℤ
  realStroke : ℤ
  strokeFraction : ℚ
  strokeInFront : Bool
deriving DecidableEq, Repr

namespace Insist

/-- `Insist::_updateStrokeTiming`.  Note the acceleration is computed from
`_nextMove.speed` — the speed of the command returned by the previous
`nextTarget` call — not from the freshly computed `_speed`. -/
def updateStrokeTiming (s : InsistState) : InsistState :=
  { s with speed := ftrunc (1.5 * (s.stroke : ℚ) / s.timeOfStroke),
           acceleration := ftrunc (3.0 * (s.nextMove.speed : ℚ) /
                                   (s.timeOfStroke * s.strokeFraction)),
           realStroke := ftrunc ((s.stroke : ℚ) * s.strokeFraction) }

/-- `Insist::setSensation`. -/
def setSensation (sensation : ℚ) (s : InsistState) : InsistState :=
  updateStrokeTiming
    { s with sensation := sensation,
             strokeFraction := (100 - |sensation|) / 100,
             strokeInFront := sensation > 0 }

/-- `Insist::setTimeOfStroke`: halves the cycle time, then recomputes. -/
def setTimeOfStroke (speed : ℚ) (s : InsistState) : InsistState :=
  updateStrokeTiming { s with timeOfStroke := 0.5 * speed }

/-- `Insist::setStroke`. -/
def setStroke (stroke : ℤ) (s : InsistState) : InsistState :=
  updateStrokeTiming { s with stroke := stroke }

/-- `Insist::nextTarget`: replays the precomputed speed/acceleration and places
the shortened excursion at the front or the back of the range. -/
def nextTarget (s : InsistState) (index : ℕ) : MotionParameter × InsistState :=
  let target :=
    if s.strokeInFront then
      if index % 2 = 1 then s.depth - s.realStroke else s.depth
    else
      if index % 2 = 1 then s.depth - s.stroke
      else (s.depth - s.stroke) + s.realStroke
  let m : MotionParameter :=
    { stroke := target, speed := s.speed, acceleration := s.acceleration,
      skip := s.nextMove.skip }
  (m, { s with nextMove := m, index := (index : ℤ) })

end Insist

/-- State of `Slammin`: base fields plus `_speed = 1.0` (the raw cycle-time
setting, here `speedSetting`) and `_outStrokeSpeed = 0`.  The value written by
`_updateOutStrokeSpeed` goes through a real square root
(`sqrt(stroke / 1000) + 0.5`), which is irrational; no verified claim depends
on it, so `outStrokeSpeed` is carried as uninterpreted state and the
`millis()` delay gate is abstracted as the Boolean input `delayed`. -/
structure SlamminState extends PatternState where
  speedSetting : ℚ
  outStrokeSpeed : ℤ
deriving DecidableEq, Repr

namespace Slammin

/-- `Slammin::nextTarget` (the `_updateDelay(... sqrt ...)` call only changes
the pending-gate deadline, which is the `delayed` input here). -/
def nextTarget (s : SlamminState) (index : ℕ) (delayed : Bool) :
    MotionParameter × SlamminState :=
  if !delayed then
    if index % 2 = 1 then
      let m : MotionParameter :=
        { stroke := s.depth - s.stroke, speed := s.outStrokeSpeed,
          acceleration := ftrunc (1.1 * (s.outStrokeSpeed : ℚ) / s.timeOfStroke),
          skip := false }
      (m, { s with nextMove := m, index := (index : ℤ) })
    else
      let speed := ftrunc (1.6 * (s.stroke : ℚ) / s.timeOfStroke)
      let m : MotionParameter :=
        { stroke := s.depth, speed := speed,
          acceleration := ftrunc (2.8 * (speed : ℚ) / s.timeOfStroke),
          skip := false }
      (m, { s with nextMove := m, index := (index : ℤ) })
  else
    let m : MotionParameter := { s.nextMove with skip := true }
    (m, { s with nextMove := m, index := (index : ℤ) })

end Slammin

/-- State of `Knot`: base fields plus `_speed = 1.0` (raw cycle-time setting)
and `_slowSpeed = 0`.  As with Slammin, `_updateSlowSpeed` and the delay
duration go through a real square root and feed no verified claim, so
`slowSpeed` is carried as uninterpreted state and the delay gate is the
Boolean input `delayed`. -/
structure KnotState extends PatternState where
  speedSetting : ℚ
  slowSpeed : ℤ
deriving DecidableEq, Repr

namespace Knot

/-- `Knot::nextTarget`: the default acceleration is computed first from the
stale `_nextMove.speed`; each phase then overwrites fields in order, so the
phase accelerations also read the stale speed.  Phases 2 and 4 only start the
pause and leave the target position untouched. -/
def nextTarget (s : KnotState) (index : ℕ) (delayed : Bool) :
    MotionParameter × KnotState :=
  let m0 : MotionParameter :=
    { s.nextMove with
      acceleration := ftrunc (3.0 * (s.nextMove.speed : ℚ) / s.timeOfStroke) }
  if !delayed then
    let m :=
      if index % 5 = 0 then
        { m0 with acceleration := ftrunc (2.0 * (m0.speed : ℚ) / s.timeOfStroke),
                  speed := ftrunc (1.0 * (s.stroke : ℚ) / s.timeOfStroke),
                  stroke := s.depth - s.stroke, skip := false }
      else if index % 5 = 1 then
        { m0 with acceleration := ftrunc (2.0 * (m0.speed : ℚ) / s.timeOfStroke),
                  speed := ftrunc (0.8 * (s.stroke : ℚ) / s.timeOfStroke),
                  stroke := ftrunc (((s.depth - s.stroke : ℤ) : ℚ) +
                                    (s.stroke : ℚ) * 0.70),
                  skip := false }
      else if index % 5 = 3 then
        { m0 with acceleration := ftrunc (2.3 * (m0.speed : ℚ) / s.timeOfStroke),
                  speed := s.slowSpeed, stroke := s.depth, skip := false }
      else
        { m0 with skip := false }
    (m, { s with nextMove := m, index := (index : ℤ) })
  else
    let m := { m0 with skip := true }
    (m, { s with nextMove := m, index := (index : ℤ) })

end Knot

/-! ### Arithmetic helper lemmas -/

theorem tdiv_nonneg_of_nonneg {a b : ℤ} (ha : 0 ≤ a) (hb : 0 ≤ b) :
    0 ≤ Int.tdiv a b :=
  Int.tdiv_nonneg ha hb

theorem tdiv_le_self_of_nonneg {a b : ℤ} (ha : 0 ≤ a) (hb : 1 ≤ b) :
    Int.tdiv a b ≤ a := by
  have h1 : 0 ≤ Int.tdiv a b := Int.tdiv_nonneg ha (by omega)
  have h2 : Int.tdiv a b * b ≤ a := by
    rw [Int.tdiv_eq_ediv ha (by omega)]
    exact Int.ediv_mul_le a (by omega)
  nlinarith

theorem tdiv_mul_le_of_nonneg {a b : ℤ} (ha : 0 ≤ a) (hb : 1 ≤ b) :
    Int.tdiv a b * b ≤ a := by
  rw [Int.tdiv_eq_ediv ha (by omega)]
  exact Int.ediv_mul_le a (by omega)

theorem mul_frac_bounds {st : ℤ} {f : ℚ} (hst : 0 ≤ st) (h0 : 0 ≤ f)
    (h1 : f ≤ 1) : 0 ≤ ftrunc ((st : ℚ) * f) ∧ ftrunc ((st : ℚ) * f) ≤ st := by
  constructor
  · exact le_ftrunc_of_le (by push_cast; positivity)
  · refine ftrunc_le_of_le ?_
    calc (st : ℚ) * f ≤ (st : ℚ) * 1 := by
          exact mul_le_mul_of_nonneg_left h1 (by exact_mod_cast hst)
        _ = (st : ℚ) := mul_one _

/-! ### Per-variant position lemmas (amplitudes and target ranges) -/

theorem simpleStroke_position (s : PatternState) (i : ℕ)
    (h0 : 0 ≤ s.stroke) :
    inRange s.depth s.stroke ((SimpleStroke.nextTarget s i).1.stroke) := by
  unfold SimpleStroke.nextTarget inRange
  dsimp only
  split <;> omega

theorem teasingPounding_position (s : TeasingPoundingState) (i : ℕ)
    (h0 : 0 ≤ s.stroke) :
    inRange s.depth s.stroke ((TeasingPounding.nextTarget s i).1.stroke) := by
  unfold TeasingPounding.nextTarget inRange
  dsimp only
  split <;> simp <;> omega

theorem roboStroke_position (s : RoboStrokeState) (i : ℕ)
    (h0 : 0 ≤ s.stroke) :
    inRange s.depth s.stroke ((RoboStroke.nextTarget s i).1.stroke) := by
  unfold RoboStroke.nextTarget inRange
  dsimp only
  split <;> omega

theorem hnh_strokeLen_bounds (s : HalfnHalfState) (i : ℕ) (h0 : 0 ≤ s.stroke) :
    0 ≤ HalfnHalf.strokeLen s i ∧ HalfnHalf.strokeLen s i ≤ s.stroke := by
  unfold HalfnHalf.strokeLen
  split
  · exact ⟨tdiv_nonneg_of_nonneg h0 (by omega),
      tdiv_le_self_of_nonneg h0 (by omega)⟩
  · exact ⟨h0, le_rfl⟩

theorem halfnHalf_position (s : HalfnHalfState) (i : ℕ) (h0 : 0 ≤ s.stroke) :
    inRange s.depth s.stroke ((HalfnHalf.nextTarget s i).1.stroke) := by
  have hb := hnh_strokeLen_bounds s i h0
  unfold HalfnHalf.nextTarget inRange
  dsimp only
  split <;> simp <;> omega

theorem deeper_amplitude_bounds (s : DeeperState) (i : ℕ) (h0 : 0 ≤ s.stroke)
    (hc : 1 ≤ s.countStrokesForRamp) :
    0 ≤ Deeper.amplitude s i ∧ Deeper.amplitude s i ≤ s.stroke := by
  have hslope0 : 0 ≤ Int.tdiv s.stroke s.countStrokesForRamp :=
    tdiv_nonneg_of_nonneg h0 (by omega)
  have hci1 : 1 ≤ Deeper.cycleIndex s i := by
    unfold Deeper.cycleIndex
    have := Int.emod_nonneg ((i / 2 : ℕ) : ℤ) (b := s.countStrokesForRamp)
      (by omega)
    omega
  have hcic : Deeper.cycleIndex s i ≤ s.countStrokesForRamp := by
    unfold Deeper.cycleIndex
    have := Int.emod_lt_of_pos ((i / 2 : ℕ) : ℤ) (b := s.countStrokesForRamp)
      (by omega)
    omega
  constructor
  · exact mul_nonneg hslope0 (by omega)
  · calc Deeper.amplitude s i
        ≤ Int.tdiv s.stroke s.countStrokesForRamp * s.countStrokesForRamp :=
          mul_le_mul_of_nonneg_left hcic hslope0
      _ ≤ s.stroke := tdiv_mul_le_of_nonneg h0 hc

theorem deeper_position (s : DeeperState) (i : ℕ) (h0 : 0 ≤ s.stroke)
    (hc : 1 ≤ s.countStrokesForRamp) :
    inRange s.depth s.stroke ((Deeper.nextTarget s i).1.stroke) := by
  have hb := deeper_amplitude_bounds s i h0 hc
  unfold Deeper.nextTarget inRange
  dsimp only
  split <;> omega

theorem stopNGo_position (s : StopNGoState) (i : ℕ) (now : ℤ)
    (h0 : 0 ≤ s.stroke)
    (hskip : (StopNGo.nextTarget s i now).1.skip = false) :
    inRange s.depth s.stroke ((StopNGo.nextTarget s i now).1.stroke) := by
  unfold StopNGo.nextTarget at hskip ⊢
  dsimp only at hskip ⊢
  split_ifs at hskip ⊢ <;> simp_all [inRange]

theorem insist_realStroke_bounds (s : InsistState) (h0 : 0 ≤ s.stroke)
    (hfrac0 : 0 ≤ s.strokeFraction) (hfrac1 : s.strokeFraction ≤ 1) :
    0 ≤ (Insist.updateStrokeTiming s).realStroke ∧
      (Insist.updateStrokeTiming s).realStroke ≤ s.stroke := by
  unfold Insist.updateStrokeTiming
  exact mul_frac_bounds h0 hfrac0 hfrac1

theorem insist_position (s : InsistState) (i : ℕ) (h0 : 0 ≤ s.stroke)
    (hr0 : 0 ≤ s.realStroke) (hr1 : s.realStroke ≤ s.stroke) :
    inRange s.depth s.stroke ((Insist.nextTarget s i).1.stroke) := by
  unfold Insist.nextTarget inRange
  dsimp only
  split <;> split <;> omega

theorem slammin_position (s : SlamminState) (i : ℕ) (d : Bool)
    (h0 : 0 ≤ s.stroke)
    (hskip : (Slammin.nextTarget s i d).1.skip = false) :
    inRange s.depth s.stroke ((Slammin.nextTarget s i d).1.stroke) := by
  unfold Slammin.nextTarget at hskip ⊢
  dsimp only at hskip ⊢
  split_ifs at hskip ⊢ <;> simp_all [inRange]

theorem knot_stroke_phase0 (s : KnotState) (i : ℕ) (h : i % 5 = 0) :
    (Knot.nextTarget s i false).1.stroke = s.depth - s.stroke := by
  unfold Knot.nextTarget
  simp [h]

theorem knot_stroke_phase1 (s : KnotState) (i : ℕ) (h : i % 5 = 1) :
    (Knot.nextTarget s i false).1.stroke =
      ftrunc (((s.depth - s.stroke : ℤ) : ℚ) + (s.stroke : ℚ) * 0.70) := by
  unfold Knot.nextTarget
  simp [h]

theorem knot_stroke_phase3 (s : KnotState) (i : ℕ) (h : i % 5 = 3) :
    (Knot.nextTarget s i false).1.stroke = s.depth := by
  unfold Knot.nextTarget
  simp [h]

theorem knot_active_phase_position (s : KnotState) (i : ℕ) (h0 : 0 ≤ s.stroke)
    (hph : i % 5 = 0 ∨ i % 5 = 1 ∨ i % 5 = 3) :
    inRange s.depth s.stroke ((Knot.nextTarget s i false).1.stroke) := by
  have hc : (0 : ℚ) ≤ (s.stroke : ℚ) := by exact_mod_cast h0
  unfold inRange
  rcases hph with h | h | h
  · rw [knot_stroke_phase0 s i h]
    exact ⟨le_refl _, by omega⟩
  · rw [knot_stroke_phase1 s i h]
    refine ⟨le_ftrunc_of_le ?_, ftrunc_le_of_le ?_⟩ <;> push_cast <;> nlinarith
  · rw [knot_stroke_phase3 s i h]
    exact ⟨by omega, le_refl _⟩

theorem knot_pause_phase_stale (s : KnotState) (i : ℕ)
    (hph : i % 5 = 2 ∨ i % 5 = 4) :
    (Knot.nextTarget s i false).1.stroke = s.nextMove.stroke := by
  unfold Knot.nextTarget
  dsimp only
  rcases hph with h | h <;> simp [h]

/-! ### Sensation-to-derived-state bridge lemmas -/

theorem deeper_count_bounds (s : DeeperState) (q : ℚ) (hlo : -100 ≤ q)
    (hhi : q ≤ 100) :
    2 ≤ (Deeper.setSensation q s).countStrokesForRamp ∧
      (Deeper.setSensation q s).countStrokesForRamp ≤ 32 := by
  unfold Deeper.setSensation arduinoMap
  dsimp only
  have h1 : (-100 : ℤ) ≤ ftrunc q := le_ftrunc_of_le (by exact_mod_cast hlo)
  have h2 : ftrunc q ≤ 100 := ftrunc_le_of_le (by exact_mod_cast hhi)
  split
  next hneg =>
    have h3 : ftrunc q ≤ 0 := ftrunc_le_of_le (by exact_mod_cast hneg.le)
    rw [Int.tdiv_eq_ediv (by omega) (by omega)]
    omega
  next hpos =>
    have h3 : (0 : ℤ) ≤ ftrunc q := by
      push_neg at hpos
      exact le_ftrunc_of_le (by exact_mod_cast hpos)
    rw [Int.tdiv_eq_ediv (by omega) (by omega)]
    omega

theorem insist_sensation_realStroke_bounds (s : InsistState) (q : ℚ)
    (habs : |q| ≤ 100) (h0 : 0 ≤ s.stroke) :
    0 ≤ (Insist.setSensation q s).realStroke ∧
      (Insist.setSensation q s).realStroke ≤ (Insist.setSensation q s).stroke := by
  unfold Insist.setSensation Insist.updateStrokeTiming
  dsimp only
  have ha := abs_nonneg q
  have hf0 : (0 : ℚ) ≤ (100 - |q|) / 100 := div_nonneg (by linarith) (by norm_num)
  have hf1 : (100 - |q|) / 100 ≤ 1 := by
    rw [div_le_one (by norm_num)]
    linarith
  exact mul_frac_bounds h0 hf0 hf1

/-! ### Concrete example states (used by counterexamples and witnesses) -/

/-- A `SimpleStroke` configured with stroke 500, depth 1000, half-time 1 s. -/
def exPattern : PatternState := patternInit 500 1000 1

def exTP : TeasingPoundingState :=
  { toPatternState := patternInit 500 1000 1,
    timeOfFastStroke := 1, timeOfInStroke := 1, timeOfOutStroke := 1 }

def exRobo : RoboStrokeState :=
  { toPatternState := patternInit 500 1000 1, x := 1/3 }

def exHnH : HalfnHalfState :=
  { toPatternState := patternInit 500 1000 1,
    timeOfFastStroke := 1, timeOfInStroke := 1, timeOfOutStroke := 1,
    half := true }

def exDeeper : DeeperState :=
  { toPatternState := patternInit 1000 1000 1, countStrokesForRamp := 11 }

def exStopNGo : StopNGoState :=
  { toPatternState := patternInit 500 1000 1, numberOfStrokes := 5,
    strokeSeriesIndex := 1, strokeIndex := 0, countStrokesUp := true }

def exInsist : InsistState :=
  { toPatternState := patternInit 500 1000 1, speed := 0, acceleration := 0,
    realStroke := 250, strokeFraction := 1/2, strokeInFront := false }

def exSlammin : SlamminState :=
  { toPatternState := patternInit 500 1000 1, speedSetting := 2,
    outStrokeSpeed := 100 }

/-- A freshly constructed `Knot` after `setTimeOfStroke(2)`, `setStroke(500)`,
`setDepth(1000)`: `_nextMove` still holds its initializer `{0, 0, 0, false}`. -/
def exKnot : KnotState :=
  { toPatternState := patternInit 500 1000 1, speedSetting := 2,
    slowSpeed := 50 }

/-! ### Claim C1 -/

/-- C1 counterexample: for `Knot`, under a well-formed configuration
(stroke 500 ≤ depth 1000, positive cycle time, sensation 0) and with no
pending delay, the call at index 2 (phase 2, a pause phase) returns
`skip = false` with the stale target position 0, which is outside
`[depth - stroke, depth] = [500, 1000]`.  The claim is false as stated. -/
theorem knot_pause_position_out_of_range :
    (0 : ℤ) ≤ exKnot.stroke ∧ exKnot.stroke ≤ exKnot.depth ∧
    (0 : ℚ) < exKnot.timeOfStroke ∧ exKnot.sensation = 0 ∧
    (Knot.nextTarget exKnot 2 false).1.skip = false ∧
    ¬ inRange exKnot.depth exKnot.stroke ((Knot.nextTarget exKnot 2 false).1.stroke) := by
  refine ⟨by decide, by decide, by norm_num [exKnot, patternInit], rfl, rfl, ?_⟩
  intro h
  exact absurd h.1 (by decide)

/-- C1 (amended): for the eight variants other than `Knot`, every command
returned with `skip = false` has its target position in
`[depth - stroke, depth]`, given a well-formed configuration (`0 ≤ stroke ≤
depth`; for `Deeper` a ramp length ≥ 1 and for `Insist` an effective stroke in
`[0, stroke]`, both of which `setSensation` guarantees for sensation in
`[-100, 100]` — see the last two conjuncts).  For `Knot` the invariant holds
in the active phases (`index % 5 ∈ {0, 1, 3}`); in the pause phases
(`index % 5 ∈ {2, 4}`) the command returned with `skip = false` carries the
previous target position unchanged, which the configuration does not bound. -/
theorem position_invariant_amended :
    (∀ (s : PatternState) (i : ℕ), 0 ≤ s.stroke → s.stroke ≤ s.depth →
      inRange s.depth s.stroke ((SimpleStroke.nextTarget s i).1.stroke)) ∧
    (∀ (s : TeasingPoundingState) (i : ℕ), 0 ≤ s.stroke → s.stroke ≤ s.depth →
      inRange s.depth s.stroke ((TeasingPounding.nextTarget s i).1.stroke)) ∧
    (∀ (s : RoboStrokeState) (i : ℕ), 0 ≤ s.stroke → s.stroke ≤ s.depth →
      inRange s.depth s.stroke ((RoboStroke.nextTarget s i).1.stroke)) ∧
    (∀ (s : HalfnHalfState) (i : ℕ), 0 ≤ s.stroke → s.stroke ≤ s.depth →
      inRange s.depth s.stroke ((HalfnHalf.nextTarget s i).1.stroke)) ∧
    (∀ (s : DeeperState) (i : ℕ), 0 ≤ s.stroke → s.stroke ≤ s.depth →
      1 ≤ s.countStrokesForRamp →
      inRange s.depth s.stroke ((Deeper.nextTarget s i).1.stroke)) ∧
    (∀ (s : StopNGoState) (i : ℕ) (now : ℤ), 0 ≤ s.stroke → s.stroke ≤ s.depth →
      (StopNGo.nextTarget s i now).1.skip = false →
      inRange s.depth s.stroke ((StopNGo.nextTarget s i now).1.stroke)) ∧
    (∀ (s : InsistState) (i : ℕ), 0 ≤ s.stroke → s.stroke ≤ s.depth →
      0 ≤ s.realStroke → s.realStroke ≤ s.stroke →
      inRange s.depth s.stroke ((Insist.nextTarget s i).1.stroke)) ∧
    (∀ (s : SlamminState) (i : ℕ) (d : Bool), 0 ≤ s.stroke → s.stroke ≤ s.depth →
      (Slammin.nextTarget s i d).1.skip = false →
      inRange s.depth s.stroke ((Slammin.nextTarget s i d).1.stroke)) ∧
    (∀ (s : KnotState) (i : ℕ), 0 ≤ s.stroke → s.stroke ≤ s.depth →
      ((i % 5 = 0 ∨ i % 5 = 1 ∨ i % 5 = 3) →
        inRange s.depth s.stroke ((Knot.nextTarget s i false).1.stroke)) ∧
      ((i % 5 = 2 ∨ i % 5 = 4) →
        (Knot.nextTarget s i false).1.stroke = s.nextMove.stroke)) ∧
    (∀ (s : DeeperState) (q : ℚ), -100 ≤ q → q ≤ 100 →
      1 ≤ (Deeper.setSensation q s).countStrokesForRamp) ∧
    (∀ (s : InsistState) (q : ℚ), |q| ≤ 100 → 0 ≤ s.stroke →
      0 ≤ (Insist.setSensation q s).realStroke ∧
      (Insist.setSensation q s).realStroke ≤ (Insist.setSensation q s).stroke) :=
  ⟨fun s i h0 _ => simpleStroke_position s i h0,
   fun s i h0 _ => teasingPounding_position s i h0,
   fun s i h0 _ => roboStroke_position s i h0,
   fun s i h0 _ => halfnHalf_position s i h0,
   fun s i h0 _ hc => deeper_position s i h0 hc,
   fun s i now h0 _ hsk => stopNGo_position s i now h0 hsk,
   fun s i h0 _ hr0 hr1 => insist_position s i h0 hr0 hr1,
   fun s i d h0 _ hsk => slammin_position s i d h0 hsk,
   fun s i h0 _ =>
     ⟨fun hph => knot_active_phase_position s i h0 hph,
      fun hph => knot_pause_phase_stale s i hph⟩,
   fun s q hlo hhi => le_trans (by omega) (deeper_count_bounds s q hlo hhi).1,
   fun s q habs h0 => insist_sensation_realStroke_bounds s q habs h0⟩

/-- C1 witness: the amended invariant instantiated at concrete states. -/
theorem position_invariant_amended_witness :
    inRange exPattern.depth exPattern.stroke
      ((SimpleStroke.nextTarget exPattern 0).1.stroke) ∧
    inRange exTP.depth exTP.stroke ((TeasingPounding.nextTarget exTP 1).1.stroke) ∧
    inRange exRobo.depth exRobo.stroke ((RoboStroke.nextTarget exRobo 2).1.stroke) ∧
    inRange exHnH.depth exHnH.stroke ((HalfnHalf.nextTarget exHnH 0).1.stroke) ∧
    inRange exDeeper.depth exDeeper.stroke ((Deeper.nextTarget exDeeper 4).1.stroke) ∧
    inRange exStopNGo.depth exStopNGo.stroke
      ((StopNGo.nextTarget exStopNGo 0 1).1.stroke) ∧
    inRange exInsist.depth exInsist.stroke ((Insist.nextTarget exInsist 3).1.stroke) ∧
    inRange exSlammin.depth exSlammin.stroke
      ((Slammin.nextTarget exSlammin 1 false).1.stroke) ∧
    inRange exKnot.depth exKnot.stroke ((Knot.nextTarget exKnot 1 false).1.stroke) ∧
    1 ≤ (Deeper.setSensation 0 exDeeper).countStrokesForRamp ∧
    0 ≤ (Insist.setSensation 50 exInsist).realStroke :=
  ⟨position_invariant_amended.1 exPattern 0 (by decide) (by decide),
   position_invariant_amended.2.1 exTP 1 (by decide) (by decide),
   position_invariant_amended.2.2.1 exRobo 2 (by decide) (by decide),
   position_invariant_amended.2.2.2.1 exHnH 0 (by decide) (by decide),
   position_invariant_amended.2.2.2.2.1 exDeeper 4 (by decide) (by decide)
     (by decide),
   position_invariant_amended.2.2.2.2.2.1 exStopNGo 0 1 (by decide) (by decide)
     rfl,
   position_invariant_amended.2.2.2.2.2.2.1 exInsist 3 (by decide) (by decide)
     (by decide) (by decide),
   position_invariant_amended.2.2.2.2.2.2.2.1 exSlammin 1 false (by decide)
     (by decide) rfl,
   (position_invariant_amended.2.2.2.2.2.2.2.2.1 exKnot 1 (by decide)
     (by decide)).1 (by decide),
   position_invariant_amended.2.2.2.2.2.2.2.2.2.1 exDeeper 0 (by norm_num)
     (by norm_num),
   (position_invariant_amended.2.2.2.2.2.2.2.2.2.2 exInsist 50 (by norm_num)
     (by decide)).1⟩

/-! ### Claim C2 -/

theorem simpleStroke_parity (s : PatternState) (i : ℕ) :
    (SimpleStroke.nextTarget s i).1.stroke =
      if i % 2 = 1 then s.depth - s.stroke else s.depth := rfl

theorem teasingPounding_parity (s : TeasingPoundingState) (i : ℕ) :
    (TeasingPounding.nextTarget s i).1.stroke =
      if i % 2 = 1 then s.depth - s.stroke else s.depth := by
  unfold TeasingPounding.nextTarget
  dsimp only
  split <;> rfl

theorem roboStroke_parity (s : RoboStrokeState) (i : ℕ) :
    (RoboStroke.nextTarget s i).1.stroke =
      if i % 2 = 1 then s.depth - s.stroke else s.depth := rfl

theorem halfnHalf_parity (s : HalfnHalfState) (i : ℕ) :
    (HalfnHalf.nextTarget s i).1.stroke =
      if i % 2 = 1 then s.depth - s.stroke
      else (s.depth - s.stroke) + HalfnHalf.strokeLen s i := by
  unfold HalfnHalf.nextTarget
  dsimp only
  split <;> rfl

theorem deeper_parity (s : DeeperState) (i : ℕ) :
    (Deeper.nextTarget s i).1.stroke =
      if i % 2 = 1 then s.depth - s.stroke
      else (s.depth - s.stroke) + Deeper.amplitude s i := rfl

theorem stopNGo_parity (s : StopNGoState) (i : ℕ) (now : ℤ)
    (hskip : (StopNGo.nextTarget s i now).1.skip = false) :
    (StopNGo.nextTarget s i now).1.stroke =
      if i % 2 = 1 then s.depth - s.stroke else s.depth := by
  unfold StopNGo.nextTarget at hskip ⊢
  dsimp only at hskip ⊢
  split_ifs at hskip ⊢ <;> simp_all

theorem insist_parity (s : InsistState) (i : ℕ) :
    (Insist.nextTarget s i).1.stroke =
      if s.strokeInFront then
        if i % 2 = 1 then s.depth - s.realStroke else s.depth
      else
        if i % 2 = 1 then s.depth - s.stroke
        else (s.depth - s.stroke) + s.realStroke := rfl

theorem slammin_parity (s : SlamminState) (i : ℕ) (d : Bool)
    (hskip : (Slammin.nextTarget s i d).1.skip = false) :
    (Slammin.nextTarget s i d).1.stroke =
      if i % 2 = 1 then s.depth - s.stroke else s.depth := by
  unfold Slammin.nextTarget at hskip ⊢
  dsimp only at hskip ⊢
  split_ifs at hskip ⊢ <;> simp_all

/-- C2 counterexample: `Knot` does not follow the parity convention.  At the
even index 0 (phase 0 of its 5-phase cycle), with no pending delay, it returns
`skip = false` and the target `depth - stroke` — the outward extreme — instead
of an inward move to the inward extreme `depth`.  The claim is false as
stated. -/
theorem knot_even_index_moves_outward :
    (Knot.nextTarget exKnot 0 false).1.skip = false ∧
    (Knot.nextTarget exKnot 0 false).1.stroke = exKnot.depth - exKnot.stroke ∧
    (Knot.nextTarget exKnot 0 false).1.stroke ≠ exKnot.depth :=
  ⟨rfl, rfl, by decide⟩

/-- C2 (amended): all variants except `Knot` follow the fixed parity
convention, in every state and at every index: an odd index yields the
outward extreme of the variant's current excursion and an even index yields
its inward extreme, the inward extreme being ≥ the outward one under a
well-formed configuration; the convention is never inverted.  `Knot` instead
keys its behavior off `index % 5` (see the C2 counterexample). -/
theorem parity_convention_amended :
    (∀ (s : PatternState) (i : ℕ),
      ((SimpleStroke.nextTarget s i).1.stroke =
        if i % 2 = 1 then s.depth - s.stroke else s.depth) ∧
      (0 ≤ s.stroke → s.depth - s.stroke ≤ s.depth)) ∧
    (∀ (s : TeasingPoundingState) (i : ℕ),
      ((TeasingPounding.nextTarget s i).1.stroke =
        if i % 2 = 1 then s.depth - s.stroke else s.depth) ∧
      (0 ≤ s.stroke → s.depth - s.stroke ≤ s.depth)) ∧
    (∀ (s : RoboStrokeState) (i : ℕ),
      ((RoboStroke.nextTarget s i).1.stroke =
        if i % 2 = 1 then s.depth - s.stroke else s.depth) ∧
      (0 ≤ s.stroke → s.depth - s.stroke ≤ s.depth)) ∧
    (∀ (s : HalfnHalfState) (i : ℕ),
      ((HalfnHalf.nextTarget s i).1.stroke =
        if i % 2 = 1 then s.depth - s.stroke
        else (s.depth - s.stroke) + HalfnHalf.strokeLen s i) ∧
      (0 ≤ s.stroke →
        s.depth - s.stroke ≤ (s.depth - s.stroke) + HalfnHalf.strokeLen s i)) ∧
    (∀ (s : DeeperState) (i : ℕ),
      ((Deeper.nextTarget s i).1.stroke =
        if i % 2 = 1 then s.depth - s.stroke
        else (s.depth - s.stroke) + Deeper.amplitude s i) ∧
      (0 ≤ s.stroke → 1 ≤ s.countStrokesForRamp →
        s.depth - s.stroke ≤ (s.depth - s.stroke) + Deeper.amplitude s i)) ∧
    (∀ (s : StopNGoState) (i : ℕ) (now : ℤ),
      ((StopNGo.nextTarget s i now).1.skip = false →
        (StopNGo.nextTarget s i now).1.stroke =
          if i % 2 = 1 then s.depth - s.stroke else s.depth) ∧
      (0 ≤ s.stroke → s.depth - s.stroke ≤ s.depth)) ∧
    (∀ (s : InsistState) (i : ℕ),
      ((Insist.nextTarget s i).1.stroke =
        if s.strokeInFront then
          if i % 2 = 1 then s.depth - s.realStroke else s.depth
        else
          if i % 2 = 1 then s.depth - s.stroke
          else (s.depth - s.stroke) + s.realStroke) ∧
      (0 ≤ s.realStroke → s.depth - s.realStroke ≤ s.depth ∧
        s.depth - s.stroke ≤ (s.depth - s.stroke) + s.realStroke)) ∧
    (∀ (s : SlamminState) (i : ℕ) (d : Bool),
      ((Slammin.nextTarget s i d).1.skip = false →
        (Slammin.nextTarget s i d).1.stroke =
          if i % 2 = 1 then s.depth - s.stroke else s.depth) ∧
      (0 ≤ s.stroke → s.depth - s.stroke ≤ s.depth)) :=
  ⟨fun s i => ⟨simpleStroke_parity s i, fun h => by omega⟩,
   fun s i => ⟨teasingPounding_parity s i, fun h => by omega⟩,
   fun s i => ⟨roboStroke_parity s i, fun h => by omega⟩,
   fun s i => ⟨halfnHalf_parity s i, fun h => by
     have := hnh_strokeLen_bounds s i h
     omega⟩,
   fun s i => ⟨deeper_parity s i, fun h hc => by
     have := deeper_amplitude_bounds s i h hc
     omega⟩,
   fun s i now => ⟨stopNGo_parity s i now, fun h => by omega⟩,
   fun s i => ⟨insist_parity s i, fun h => by omega⟩,
   fun s i d => ⟨slammin_parity s i d, fun h => by omega⟩⟩

/-- C2 witness: the amended parity convention instantiated at concrete
states and indices, with every hypothesis discharged. -/
theorem parity_convention_amended_witness :
    ((SimpleStroke.nextTarget exPattern 1).1.stroke =
      if 1 % 2 = 1 then exPattern.depth - exPattern.stroke else exPattern.depth) ∧
    exPattern.depth - exPattern.stroke ≤ exPattern.depth ∧
    ((TeasingPounding.nextTarget exTP 2).1.stroke =
      if 2 % 2 = 1 then exTP.depth - exTP.stroke else exTP.depth) ∧
    ((RoboStroke.nextTarget exRobo 3).1.stroke =
      if 3 % 2 = 1 then exRobo.depth - exRobo.stroke else exRobo.depth) ∧
    ((HalfnHalf.nextTarget exHnH 2).1.stroke =
      if 2 % 2 = 1 then exHnH.depth - exHnH.stroke
      else (exHnH.depth - exHnH.stroke) + HalfnHalf.strokeLen exHnH 2) ∧
    exHnH.depth - exHnH.stroke ≤
      (exHnH.depth - exHnH.stroke) + HalfnHalf.strokeLen exHnH 2 ∧
    ((Deeper.nextTarget exDeeper 2).1.stroke =
      if 2 % 2 = 1 then exDeeper.depth - exDeeper.stroke
      else (exDeeper.depth - exDeeper.stroke) + Deeper.amplitude exDeeper 2) ∧
    exDeeper.depth - exDeeper.stroke ≤
      (exDeeper.depth - exDeeper.stroke) + Deeper.amplitude exDeeper 2 ∧
    ((StopNGo.nextTarget exStopNGo 1 5).1.stroke =
      if 1 % 2 = 1 then exStopNGo.depth - exStopNGo.stroke else exStopNGo.depth) ∧
    ((Insist.nextTarget exInsist 0).1.stroke =
      if exInsist.strokeInFront then
        if 0 % 2 = 1 then exInsist.depth - exInsist.realStroke else exInsist.depth
      else
        if 0 % 2 = 1 then exInsist.depth - exInsist.stroke
        else (exInsist.depth - exInsist.stroke) + exInsist.realStroke) ∧
    exInsist.depth - exInsist.realStroke ≤ exInsist.depth ∧
    ((Slammin.nextTarget exSlammin 0 false).1.stroke =
      if 0 % 2 = 1 then exSlammin.depth - exSlammin.stroke else exSlammin.depth) :=
  ⟨(parity_convention_amended.1 exPattern 1).1,
   (parity_convention_amended.1 exPattern 1).2 (by decide),
   (parity_convention_amended.2.1 exTP 2).1,
   (parity_convention_amended.2.2.1 exRobo 3).1,
   (parity_convention_amended.2.2.2.1 exHnH 2).1,
   (parity_convention_amended.2.2.2.1 exHnH 2).2 (by decide),
   (parity_convention_amended.2.2.2.2.1 exDeeper 2).1,
   (parity_convention_amended.2.2.2.2.1 exDeeper 2).2 (by decide) (by decide),
   (parity_convention_amended.2.2.2.2.2.1 exStopNGo 1 5).1 rfl,
   (parity_convention_amended.2.2.2.2.2.2.1 exInsist 0).1,
   ((parity_convention_amended.2.2.2.2.2.2.1 exInsist 0).2 (by decide)).1,
   (parity_convention_amended.2.2.2.2.2.2.2 exSlammin 0 false).1 rfl⟩

/-! ### Claim C3 -/

theorem ftrunc_hundred : ftrunc (100 : ℚ) = 100 := by
  rw [show (100 : ℚ) = ((100 : ℤ) : ℚ) by norm_num]
  exact ftrunc_intCast 100

theorem ftrunc_neg_hundred : ftrunc (-100 : ℚ) = -100 := by
  rw [show (-100 : ℚ) = ((-100 : ℤ) : ℚ) by norm_num]
  exact ftrunc_intCast (-100)

/-- C3 counterexample: `StopNGo::setSensation(100)` arms a pause of 10000 ms
(and `setSensation(-100)` one of 100 ms) — the code maps sensation `-100 ↦
100 ms` and `100 ↦ 10000 ms`, the opposite direction of the claim, so
`setSensation(100)` is nowhere near 100 ms. -/
theorem stopNGo_sensation_delay_inverted :
    (StopNGo.setSensation 100 exStopNGo).delayInMillis = 10000 ∧
    (StopNGo.setSensation (-100) exStopNGo).delayInMillis = 100 ∧
    ¬ (StopNGo.setSensation 100 exStopNGo).delayInMillis ≤ 1000 := by
  unfold StopNGo.setSensation arduinoMap
  dsimp only
  rw [ftrunc_hundred, ftrunc_neg_hundred]
  refine ⟨by decide, by decide, by decide⟩

/-- C3 (amended): for `StopNGo`, `setSensation(100)` arms a pause of 10000 ms
and `setSensation(-100)` a pause of 100 ms (the claim had the direction of the
sensation-to-pause mapping inverted; the rest is as claimed): while the delay
gate is pending, every `nextTarget` call returns `skip = true` and leaves the
internal stroke counters (`_strokeIndex`, `_strokeSeriesIndex`,
`_countStrokesUp`) unchanged. -/
theorem stopNGo_delay_and_pending_gate :
    (∀ s : StopNGoState, (StopNGo.setSensation 100 s).delayInMillis = 10000) ∧
    (∀ s : StopNGoState, (StopNGo.setSensation (-100) s).delayInMillis = 100) ∧
    (∀ (s : StopNGoState) (i : ℕ) (now : ℤ),
      now ≤ s.startDelayMillis + s.delayInMillis →
      (StopNGo.nextTarget s i now).1.skip = true ∧
      StopNGo.countersOf ((StopNGo.nextTarget s i now).2) =
        StopNGo.countersOf s) :=
  ⟨fun s => by
    unfold StopNGo.setSensation arduinoMap
    dsimp only
    rw [ftrunc_hundred]
    decide,
   fun s => by
    unfold StopNGo.setSensation arduinoMap
    dsimp only
    rw [ftrunc_neg_hundred]
    decide,
   fun s i now hle => by
    unfold StopNGo.nextTarget
    dsimp only
    rw [if_neg (by omega)]
    exact ⟨rfl, rfl⟩⟩

/-- C3 witness: the pending-gate behavior at a concrete state and time
(`now = 0 ≤ 0 + 0`, so the gate is pending). -/
theorem stopNGo_delay_and_pending_gate_witness :
    (StopNGo.setSensation 100 exStopNGo).delayInMillis = 10000 ∧
    (StopNGo.nextTarget exStopNGo 3 0).1.skip = true ∧
    StopNGo.countersOf ((StopNGo.nextTarget exStopNGo 3 0).2) =
      StopNGo.countersOf exStopNGo :=
  ⟨stopNGo_delay_and_pending_gate.1 exStopNGo,
   (stopNGo_delay_and_pending_gate.2.2 exStopNGo 3 0 (by decide)).1,
   (stopNGo_delay_and_pending_gate.2.2 exStopNGo 3 0 (by decide)).2⟩

/-! ### Claim C4 -/

/-- C4 (code-bug evidence): the speed/acceleration formulas and the range of
`x` are as claimed (`x ∈ [0.05, 0.5]`, `x = 1/3` at sensation 0), but the
direction of the sensation mapping in `RoboStroke::setSensation` is the
opposite of the claim (and of the class's own documentation, which says a
positive value increases acceleration toward constant-speed motion): the code
maps sensation `100` to `x = 1/2` (the triangular-profile end, minimal
acceleration) and sensation `-100` to `x = 1/20` (the constant-speed end,
maximal acceleration). -/
theorem robo_sensation_direction_inverted :
    (∀ s : RoboStrokeState, (RoboStroke.setSensation 100 s).x = 1/2) ∧
    (∀ s : RoboStrokeState, (RoboStroke.setSensation (-100) s).x = 1/20) ∧
    (∀ s : RoboStrokeState, (RoboStroke.setSensation 0 s).x = 1/3) ∧
    ((1 : ℚ)/3 < 1/2 ∧ (1 : ℚ)/20 < 1/3) ∧
    (∀ (s : RoboStrokeState) (i : ℕ),
      (RoboStroke.nextTarget s i).1.speed =
        ftrunc ((s.stroke : ℚ) / ((1 - s.x) * s.timeOfStroke)) ∧
      (RoboStroke.nextTarget s i).1.acceleration =
        ftrunc ((s.stroke : ℚ) / ((1 - s.x) * s.timeOfStroke) /
                (s.x * s.timeOfStroke))) :=
  ⟨fun s => by
    unfold RoboStroke.setSensation fscale
    norm_num,
   fun s => by
    unfold RoboStroke.setSensation fscale
    norm_num,
   fun s => by
    unfold RoboStroke.setSensation fscale
    norm_num,
   by norm_num,
   fun s i => ⟨rfl, rfl⟩⟩

/-! ### Claim C5 -/

/-- A `TeasingPounding` configured by `setTimeOfStroke(T)` then
`setSensation(0)` on top of a freshly initialized base. -/
def tpConfig (p : PatternState) (T : ℚ) : TeasingPoundingState :=
  TeasingPounding.setSensation 0 (TeasingPounding.setTimeOfStroke T
    { toPatternState := p, timeOfFastStroke := 1, timeOfInStroke := 1,
      timeOfOutStroke := 1 })

theorem tpConfig_fields (p : PatternState) (T : ℚ) :
    (tpConfig p T).stroke = p.stroke ∧ (tpConfig p T).depth = p.depth ∧
    (tpConfig p T).nextMove = p.nextMove ∧
    (tpConfig p T).timeOfInStroke = 0.5 * T ∧
    (tpConfig p T).timeOfOutStroke = 0.5 * T := by
  unfold tpConfig TeasingPounding.setSensation TeasingPounding.setTimeOfStroke
    TeasingPounding.updateStrokeTiming fscale
  dsimp only
  split_ifs <;>
    refine ⟨rfl, rfl, rfl, ?_, ?_⟩ <;>
    norm_num [min_def, max_def] <;> ring

/-- At sensation 0, `TeasingPounding` degenerates to `SimpleStroke`: the
commands are identical at every index, for every configuration. -/
theorem tp_matches_simple (p : PatternState) (T : ℚ) (i : ℕ) :
    (TeasingPounding.nextTarget (tpConfig p T) i).1 =
      (SimpleStroke.nextTarget (SimpleStroke.setTimeOfStroke T p) i).1 := by
  obtain ⟨h1, h2, h3, h4, h5⟩ := tpConfig_fields p T
  unfold TeasingPounding.nextTarget SimpleStroke.nextTarget
    SimpleStroke.setTimeOfStroke
  dsimp only
  rw [h1, h2, h3, h4, h5]
  rcases Nat.mod_two_eq_zero_or_one i with h | h <;> simp [h]

/-- A `HalfnHalf` configured by `setTimeOfStroke(T)` then `setSensation(0)` on
top of a freshly initialized base (`_half = true`). -/
def hnhConfig (p : PatternState) (T : ℚ) : HalfnHalfState :=
  HalfnHalf.setSensation 0 (HalfnHalf.setTimeOfStroke T
    { toPatternState := p, timeOfFastStroke := 1, timeOfInStroke := 1,
      timeOfOutStroke := 1, half := true })

theorem hnhConfig_fields (p : PatternState) (T : ℚ) :
    (hnhConfig p T).stroke = p.stroke ∧ (hnhConfig p T).depth = p.depth ∧
    (hnhConfig p T).nextMove = p.nextMove ∧
    (hnhConfig p T).timeOfInStroke = 0.5 * T ∧
    (hnhConfig p T).timeOfOutStroke = 0.5 * T ∧
    (hnhConfig p T).half = true ∧
    (hnhConfig p T).sensation = 0 := by
  unfold hnhConfig HalfnHalf.setSensation HalfnHalf.setTimeOfStroke
    HalfnHalf.updateStrokeTiming fscale
  dsimp only
  split_ifs <;>
    refine ⟨rfl, rfl, rfl, ?_, ?_, rfl, rfl⟩ <;>
    norm_num [min_def, max_def] <;> ring

/-- `HalfnHalf` driven from the configured state with indices `0, 1, 2, …`. -/
def hnhRun (p : PatternState) (T : ℚ) : ℕ → HalfnHalfState
  | 0 => hnhConfig p T
  | n + 1 => (HalfnHalf.nextTarget (hnhRun p T n) n).2

theorem hnhStep_preserves (s : HalfnHalfState) (n : ℕ) :
    (HalfnHalf.nextTarget s n).2.stroke = s.stroke ∧
    (HalfnHalf.nextTarget s n).2.depth = s.depth ∧
    (HalfnHalf.nextTarget s n).2.timeOfInStroke = s.timeOfInStroke ∧
    (HalfnHalf.nextTarget s n).2.timeOfOutStroke = s.timeOfOutStroke ∧
    (HalfnHalf.nextTarget s n).2.nextMove.skip = s.nextMove.skip := by
  unfold HalfnHalf.nextTarget
  dsimp only
  split <;> exact ⟨rfl, rfl, rfl, rfl, rfl⟩

theorem hnhRun_fields (p : PatternState) (T : ℚ) (n : ℕ) :
    (hnhRun p T n).stroke = p.stroke ∧ (hnhRun p T n).depth = p.depth ∧
    (hnhRun p T n).timeOfInStroke = 0.5 * T ∧
    (hnhRun p T n).timeOfOutStroke = 0.5 * T ∧
    (hnhRun p T n).nextMove.skip = p.nextMove.skip := by
  induction n with
  | zero =>
    obtain ⟨a, b, c, d, e, _, _⟩ := hnhConfig_fields p T
    exact ⟨a, b, d, e, by rw [show (hnhRun p T 0).nextMove = p.nextMove from c]⟩
  | succ n ih =>
    obtain ⟨a, b, c, d, e⟩ := hnhStep_preserves (hnhRun p T n) n
    exact ⟨a.trans ih.1, b.trans ih.2.1, c.trans ih.2.2.1, d.trans ih.2.2.2.1,
      e.trans ih.2.2.2.2⟩

/-- The half flag along the run: true exactly when `(n / 2)` is even (the
first in/out pair is half-length, the next full-length, alternating). -/
theorem hnhRun_half (p : PatternState) (T : ℚ) (n : ℕ) :
    (hnhRun p T n).half = decide ((n / 2) % 2 = 0) := by
  induction n with
  | zero => simpa using (hnhConfig_fields p T).2.2.2.2.2.1
  | succ n ih =>
    show (HalfnHalf.nextTarget (hnhRun p T n) n).2.half = _
    unfold HalfnHalf.nextTarget HalfnHalf.halfFlag
    dsimp only
    rcases Nat.mod_two_eq_zero_or_one n with h | h
    · rw [if_neg (by omega)]
      dsimp only
      by_cases h0 : n = 0
      · subst h0
        simp
      · rw [if_neg h0]
        have hq : (n + 1) / 2 = n / 2 := by omega
        rw [hq, ih]
    · rw [if_pos h]
      dsimp only
      rw [if_neg (by omega : ¬ n = 0), ih]
      have hq : (n + 1) / 2 = n / 2 + 1 := by omega
      rw [hq]
      rcases Nat.mod_two_eq_zero_or_one (n / 2) with h2 | h2 <;>
        simp [Nat.add_mod, h2]

/-- On the full-length strokes (indices with `(i / 2)` odd), `HalfnHalf` at
sensation 0 returns exactly SimpleStroke's command. -/
theorem hnh_full_matches_simple (p : PatternState) (T : ℚ) (i : ℕ)
    (hfull : (i / 2) % 2 = 1) :
    (HalfnHalf.nextTarget (hnhRun p T i) i).1 =
      (SimpleStroke.nextTarget (SimpleStroke.setTimeOfStroke T p) i).1 := by
  obtain ⟨h1, h2, h3, h4, h5⟩ := hnhRun_fields p T i
  have hhalf : (hnhRun p T i).half = false := by
    rw [hnhRun_half, hfull]
    simp
  have hi0 : i ≠ 0 := by
    intro h
    rw [h] at hfull
    simp at hfull
  unfold HalfnHalf.nextTarget HalfnHalf.strokeLen HalfnHalf.halfFlag
    SimpleStroke.nextTarget SimpleStroke.setTimeOfStroke
  dsimp only
  rw [if_neg hi0, hhalf, h1, h2, h3, h4, h5]
  rcases Nat.mod_two_eq_zero_or_one i with h | h <;> simp [h]

/-- A `RoboStroke` on the spec's concrete scenario configuration:
`setTimeOfStroke(2)` then `setSensation(0)` with stroke 1000, depth 1000. -/
def roboConfig : RoboStrokeState :=
  RoboStroke.setSensation 0 (RoboStroke.setTimeOfStroke 2
    { toPatternState := patternInit 1000 1000 1, x := 1/3 })

theorem roboConfig_x : roboConfig.x = 1/3 := by
  unfold roboConfig RoboStroke.setSensation RoboStroke.setTimeOfStroke fscale
  norm_num

/-- On the concrete scenario configuration, `RoboStroke` at sensation 0
returns exactly SimpleStroke's trapezoid at every index. -/
theorem robo_matches_simple_concrete (i : ℕ) :
    (RoboStroke.nextTarget roboConfig i).1 =
      (SimpleStroke.nextTarget (SimpleStroke.setTimeOfStroke 2
        (patternInit 1000 1000 1)) i).1 := by
  have hx : roboConfig.x = 1/3 := roboConfig_x
  have hst : roboConfig.stroke = 1000 := rfl
  have hdp : roboConfig.depth = 1000 := rfl
  have ht : roboConfig.timeOfStroke = 0.5 * 2 := rfl
  have hsk : roboConfig.nextMove.skip = false := rfl
  unfold RoboStroke.nextTarget SimpleStroke.nextTarget
    SimpleStroke.setTimeOfStroke patternInit
  dsimp only
  rw [hx, hst, hdp, ht, hsk]
  have e1 : ((1000 : ℤ) : ℚ) / ((1 - 1/3) * (0.5 * 2)) = ((1500 : ℤ) : ℚ) := by
    norm_num
  have e2 : (1.5 * ((1000 : ℤ) : ℚ) / (0.5 * 2)) = ((1500 : ℤ) : ℚ) := by
    norm_num
  rw [e1, e2, ftrunc_intCast]
  have e3 : ((1500 : ℤ) : ℚ) / (1/3 * (0.5 * 2)) = ((4500 : ℤ) : ℚ) := by
    norm_num
  have e4 : (3.0 * ((1500 : ℤ) : ℚ) / (0.5 * 2)) = ((4500 : ℤ) : ℚ) := by
    norm_num
  rw [e3, e4]

/-- C5 counterexample: `HalfnHalf` at sensation 0 is not numerically identical
to `SimpleStroke` under the same configuration (stroke 1000, depth 1000,
cycleTime 2): at index 0 its half-stroke mechanism targets position 500 with a
half-length stroke, while SimpleStroke targets 1000.  The claim is false as
stated. -/
theorem halfnHalf_differs_from_simple :
    (hnhRun (patternInit 1000 1000 1) 2 0).sensation = 0 ∧
    (HalfnHalf.nextTarget (hnhRun (patternInit 1000 1000 1) 2 0) 0).1.stroke = 500 ∧
    (SimpleStroke.nextTarget (SimpleStroke.setTimeOfStroke 2
      (patternInit 1000 1000 1)) 0).1.stroke = 1000 ∧
    (HalfnHalf.nextTarget (hnhRun (patternInit 1000 1000 1) 2 0) 0).1 ≠
      (SimpleStroke.nextTarget (SimpleStroke.setTimeOfStroke 2
        (patternInit 1000 1000 1)) 0).1 := by
  obtain ⟨hstk, hdep, -, -, -, -, hsen⟩ :=
    hnhConfig_fields (patternInit 1000 1000 1) 2
  have hs : (HalfnHalf.nextTarget (hnhRun (patternInit 1000 1000 1) 2 0) 0).1.stroke
      = 500 := by
    rw [halfnHalf_parity, if_neg (by decide : ¬ (0 % 2 = 1))]
    unfold HalfnHalf.strokeLen HalfnHalf.halfFlag
    rw [if_pos rfl, if_pos rfl]
    rw [show (hnhRun (patternInit 1000 1000 1) 2 0).stroke = 1000 from hstk,
        show (hnhRun (patternInit 1000 1000 1) 2 0).depth = 1000 from hdep]
    decide
  refine ⟨hsen, hs, rfl, fun h => ?_⟩
  have := congrArg MotionParameter.stroke h
  rw [hs] at this
  exact absurd this (by decide)

/-- C5 (amended): at sensation 0, `TeasingPounding` is numerically identical
to `SimpleStroke` at every index and for every stroke/depth/cycleTime
configuration.  `HalfnHalf`'s timing split also degenerates to the even split,
but its alternating half-stroke mechanism makes its commands differ on the
half-length strokes: its commands equal SimpleStroke's exactly on the
full-length strokes, the indices `i` with `(i / 2)` odd.  `RoboStroke` at
sensation 0 has `x = 1/3` and, on the spec's concrete scenario configuration
(stroke 1000, depth 1000, cycleTime 2), returns exactly SimpleStroke's
trapezoid at every index. -/
theorem sensation_zero_equivalences :
    (∀ (p : PatternState) (T : ℚ) (i : ℕ),
      (TeasingPounding.nextTarget (tpConfig p T) i).1 =
        (SimpleStroke.nextTarget (SimpleStroke.setTimeOfStroke T p) i).1) ∧
    (∀ (p : PatternState) (T : ℚ) (i : ℕ), (i / 2) % 2 = 1 →
      (HalfnHalf.nextTarget (hnhRun p T i) i).1 =
        (SimpleStroke.nextTarget (SimpleStroke.setTimeOfStroke T p) i).1) ∧
    roboConfig.x = 1/3 ∧
    (∀ i : ℕ, (RoboStroke.nextTarget roboConfig i).1 =
      (SimpleStroke.nextTarget (SimpleStroke.setTimeOfStroke 2
        (patternInit 1000 1000 1)) i).1) :=
  ⟨tp_matches_simple, hnh_full_matches_simple, roboConfig_x,
   robo_matches_simple_concrete⟩

/-- C5 witness: the three equivalences at concrete configurations and indices
(`(2 / 2) % 2 = 1`, so index 2 is a full-length HalfnHalf stroke). -/
theorem sensation_zero_equivalences_witness :
    ((TeasingPounding.nextTarget (tpConfig (patternInit 500 1000 1) 2) 0).1 =
      (SimpleStroke.nextTarget (SimpleStroke.setTimeOfStroke 2
        (patternInit 500 1000 1)) 0).1) ∧
    ((HalfnHalf.nextTarget (hnhRun (patternInit 1000 1000 1) 2 2) 2).1 =
      (SimpleStroke.nextTarget (SimpleStroke.setTimeOfStroke 2
        (patternInit 1000 1000 1)) 2).1) ∧
    ((RoboStroke.nextTarget roboConfig 1).1 =
      (SimpleStroke.nextTarget (SimpleStroke.setTimeOfStroke 2
        (patternInit 1000 1000 1)) 1).1) :=
  ⟨sensation_zero_equivalences.1 (patternInit 500 1000 1) 2 0,
   sensation_zero_equivalences.2.1 (patternInit 1000 1000 1) 2 2 (by decide),
   sensation_zero_equivalences.2.2.2 1⟩

/-! ### Claim C6 -/

/-- One `StopNGo` call with `millis()` sampled just past the gate deadline, so
the delay gate is never pending ("driven with no pending delay gate"). -/
def stopNGoTick (s : StopNGoState) (i : ℕ) : StopNGoState :=
  (StopNGo.nextTarget s i (s.startDelayMillis + s.delayInMillis + 1)).2

/-- `StopNGo` driven from `s0` with strictly increasing indices `0, 1, 2, …`
and no pending delay gate. -/
def stopNGoRun (s0 : StopNGoState) : ℕ → StopNGoState
  | 0 => s0
  | n + 1 => stopNGoTick (stopNGoRun s0 n) n

/-- Counter transition of an inward (even-index) stroke: `_strokeIndex++`. -/
def sgIn (c : ℤ × ℤ × Bool) : ℤ × ℤ × Bool := (c.1 + 1, c.2.1, c.2.2)

/-- The series-completion update of `(_strokeSeriesIndex, _countStrokesUp)`
(with `_numberOfStrokes = 5`, its initial and only value). -/
def sgUpd (lu : ℤ × Bool) : ℤ × Bool :=
  let up1 := if lu.1 ≥ 5 then false else lu.2
  let up2 := if lu.1 ≤ 1 then true else up1
  (if up2 then lu.1 + 1 else lu.1 - 1, up2)

/-- Counter transition of an outward (odd-index) stroke. -/
def sgOut (c : ℤ × ℤ × Bool) : ℤ × ℤ × Bool :=
  if c.1 ≥ c.2.1 then (0, sgUpd (c.2.1, c.2.2)) else c

/-- Counter transition of one full stroke (one inward then one outward call). -/
def sgPair (c : ℤ × ℤ × Bool) : ℤ × ℤ × Bool := sgOut (sgIn c)

theorem stopNGoTick_numberOfStrokes (s : StopNGoState) (i : ℕ) :
    (stopNGoTick s i).numberOfStrokes = s.numberOfStrokes := by
  unfold stopNGoTick StopNGo.nextTarget
  dsimp only
  split_ifs <;> rfl

theorem stopNGoRun_numberOfStrokes (s0 : StopNGoState) (n : ℕ) :
    (stopNGoRun s0 n).numberOfStrokes = s0.numberOfStrokes := by
  induction n with
  | zero => rfl
  | succ n ih => exact (stopNGoTick_numberOfStrokes _ n).trans ih

/-- With the gate expired, a `StopNGo` call transforms the counters by `sgIn`
on even indices and `sgOut` on odd indices. -/
theorem stopNGoTick_counters (s : StopNGoState) (i : ℕ)
    (h5 : s.numberOfStrokes = 5) :
    StopNGo.countersOf (stopNGoTick s i) =
      if i % 2 = 1 then sgOut (StopNGo.countersOf s)
      else sgIn (StopNGo.countersOf s) := by
  unfold stopNGoTick StopNGo.nextTarget StopNGo.countersOf sgOut sgIn sgUpd
  dsimp only
  rw [if_pos (by omega)]
  rw [h5]
  split_ifs <;> simp_all

/-- The series automaton: `(_strokeSeriesIndex, _countStrokesUp)` at the start
of the n-th series. -/
def sgSeries : ℕ → ℤ × Bool
  | 0 => (1, true)
  | n + 1 => sgUpd (sgSeries n)

/-- The triangular sequence `1,2,3,4,5,4,3,2` repeating with period 8. -/
def triSeq (n : ℕ) : ℤ :=
  match n % 8 with
  | 0 => 1
  | 1 => 2
  | 2 => 3
  | 3 => 4
  | 4 => 5
  | 5 => 4
  | 6 => 3
  | _ => 2

/-- The count direction at the start of the n-th series. -/
def triDir (n : ℕ) : Bool :=
  if n = 0 then true else decide ((n - 1) % 8 ≤ 3)

theorem triSeq_pos (n : ℕ) : 1 ≤ triSeq n := by
  unfold triSeq
  split <;> norm_num

theorem sgSeries_shift (k : ℕ) : sgSeries (k + 1 + 8) = sgSeries (k + 1) := by
  induction k with
  | zero => decide
  | succ k ih =>
    show sgUpd (sgSeries (k + 1 + 8)) = sgUpd (sgSeries (k + 1))
    rw [ih]

theorem sgSeries_eq (n : ℕ) : sgSeries n = (triSeq n, triDir n) := by
  induction n using Nat.strong_induction_on with
  | _ n ih =>
    by_cases h : n < 9
    · interval_cases n <;> decide
    · obtain ⟨m, rfl⟩ : ∃ m, n = m + 1 + 8 := ⟨n - 9, by omega⟩
      rw [sgSeries_shift m, ih (m + 1) (by omega)]
      have e1 : triSeq (m + 1 + 8) = triSeq (m + 1) := by
        unfold triSeq
        rw [show (m + 1 + 8) % 8 = (m + 1) % 8 by omega]
      have e2 : triDir (m + 1 + 8) = triDir (m + 1) := by
        unfold triDir
        rw [if_neg (by omega), if_neg (by omega),
          show (m + 1 + 8 - 1) % 8 = (m + 1 - 1) % 8 by omega]
      rw [e1, e2]

theorem sgUpd_step (n : ℕ) :
    sgUpd (triSeq n, triDir n) = (triSeq (n + 1), triDir (n + 1)) := by
  rw [← sgSeries_eq n, ← sgSeries_eq (n + 1)]
  rfl

/-- Within a series of length `L` that starts with `_strokeIndex = 0`, the
first `j < L` full strokes just count up. -/
theorem sgPair_iterate_mid (L : ℤ) (u : Bool) (hL : 1 ≤ L) (j : ℕ)
    (hj : (j : ℤ) < L) : sgPair^[j] (0, L, u) = ((j : ℤ), L, u) := by
  induction j with
  | zero => rfl
  | succ j ih =>
    rw [Function.iterate_succ_apply', ih (by push_cast at hj ⊢; omega)]
    unfold sgPair sgIn sgOut
    dsimp only
    rw [if_neg (by push_cast at hj ⊢; omega)]
    push_cast
    ring_nf

/-- The L-th full stroke completes the series: the counters reset and the
series register steps by `sgUpd`. -/
theorem sgPair_iterate_complete (L : ℤ) (u : Bool) (hL : 1 ≤ L) :
    sgPair^[L.toNat] (0, L, u) = (0, sgUpd (L, u)) := by
  have h1 : L.toNat = (L.toNat - 1) + 1 := by omega
  rw [h1, Function.iterate_succ_apply',
    sgPair_iterate_mid L u hL (L.toNat - 1) (by omega)]
  unfold sgPair sgIn sgOut
  dsimp only
  rw [if_pos (by omega)]

/-- The driven run realizes the pair automaton: after `2p` ticks the counters
are `sgPair^[p]` of the initial counters. -/
theorem stopNGoRun_counters_pair (s0 : StopNGoState)
    (h5 : s0.numberOfStrokes = 5) (p : ℕ) :
    StopNGo.countersOf (stopNGoRun s0 (2 * p)) =
      sgPair^[p] (StopNGo.countersOf s0) := by
  induction p with
  | zero => rfl
  | succ p ih =>
    have e : 2 * (p + 1) = (2 * p + 1) + 1 := by ring
    rw [e]
    show StopNGo.countersOf
      (stopNGoTick (stopNGoTick (stopNGoRun s0 (2 * p)) (2 * p)) (2 * p + 1)) = _
    rw [stopNGoTick_counters _ _ (by
        rw [stopNGoTick_numberOfStrokes, stopNGoRun_numberOfStrokes]
        exact h5),
      if_pos (by omega),
      stopNGoTick_counters _ _ (by rw [stopNGoRun_numberOfStrokes]; exact h5),
      if_neg (by omega), ih, Function.iterate_succ_apply']
    rfl

/-- Total number of full strokes consumed by the first `n` completed series. -/
def triTotal : ℕ → ℕ
  | 0 => 0
  | n + 1 => triTotal n + (triSeq n).toNat

theorem sgPair_triTotal (n : ℕ) :
    sgPair^[triTotal n] (0, 1, true) = (0, triSeq n, triDir n) := by
  induction n with
  | zero => rfl
  | succ n ih =>
    show sgPair^[triTotal n + (triSeq n).toNat] (0, 1, true) = _
    rw [Nat.add_comm, Function.iterate_add_apply, ih,
      sgPair_iterate_complete _ _ (triSeq_pos n), sgUpd_step n]

/-- C6: for `StopNGo` driven with strictly increasing indices and no pending
delay gate from its initial counters (`_strokeIndex = 0`,
`_strokeSeriesIndex = 1`, `_countStrokesUp = true`, `_numberOfStrokes = 5`),
the n-th completed stroke series has length `triSeq n` — the deterministic
triangular sequence `1,2,3,4,5,4,3,2,1,2,…` — and this sequence repeats with
period 8 indefinitely.  Concretely: during the n-th series (after `j < triSeq
n` of its full strokes) the series register holds `triSeq n` and the stroke
counter holds `j`; after its `triSeq n`-th full stroke the counter resets to 0
and the register moves to `triSeq (n+1)`. -/
theorem stopNGo_series_triangular :
    (∀ (s0 : StopNGoState), StopNGo.countersOf s0 = (0, 1, true) →
      s0.numberOfStrokes = 5 → ∀ (n j : ℕ), (j : ℤ) ≤ triSeq n →
      (stopNGoRun s0 (2 * (triTotal n + j))).strokeIndex =
        (if (j : ℤ) = triSeq n then 0 else (j : ℤ)) ∧
      (stopNGoRun s0 (2 * (triTotal n + j))).strokeSeriesIndex =
        (if (j : ℤ) = triSeq n then triSeq (n + 1) else triSeq n)) ∧
    (∀ n : ℕ, triSeq (n + 8) = triSeq n) := by
  constructor
  · intro s0 hc h5 n j hj
    rw [show triTotal n + j = j + triTotal n from Nat.add_comm _ _]
    have hrun := stopNGoRun_counters_pair s0 h5 (j + triTotal n)
    rw [hc, Function.iterate_add_apply, sgPair_triTotal n] at hrun
    by_cases hcase : (j : ℤ) = triSeq n
    · have hjn : j = (triSeq n).toNat := by
        have := triSeq_pos n
        omega
      rw [if_pos hcase, if_pos hcase, hjn]
      rw [hjn, sgPair_iterate_complete _ _ (triSeq_pos n), sgUpd_step n] at hrun
      unfold StopNGo.countersOf at hrun
      rw [Prod.ext_iff, Prod.ext_iff] at hrun
      exact ⟨hrun.1, hrun.2.1⟩
    · have hjlt : (j : ℤ) < triSeq n := lt_of_le_of_ne hj hcase
      rw [if_neg hcase, if_neg hcase]
      rw [sgPair_iterate_mid _ _ (triSeq_pos n) j hjlt] at hrun
      unfold StopNGo.countersOf at hrun
      rw [Prod.ext_iff, Prod.ext_iff] at hrun
      exact ⟨hrun.1, hrun.2.1⟩
  · intro n
    unfold triSeq
    rw [show (n + 8) % 8 = n % 8 by omega]

/-- C6 witness: after the first four series (1+2+3+4 = 10 full strokes, 20
ticks) and the 5 full strokes of the fifth series, the fifth completed series
indeed had length `triSeq 4 = 5` and the register moves to `triSeq 5 = 4`. -/
theorem stopNGo_series_triangular_witness :
    (stopNGoRun exStopNGo (2 * (triTotal 4 + 5))).strokeIndex =
      (if ((5 : ℕ) : ℤ) = triSeq 4 then 0 else ((5 : ℕ) : ℤ)) ∧
    (stopNGoRun exStopNGo (2 * (triTotal 4 + 5))).strokeSeriesIndex =
      (if ((5 : ℕ) : ℤ) = triSeq 4 then triSeq (4 + 1) else triSeq 4) :=
  stopNGo_series_triangular.1 exStopNGo (by decide) (by decide) 4 5 (by decide)

/-! ### Claim C7 -/

theorem deeper_setSensation_zero (s : DeeperState) :
    (Deeper.setSensation 0 s).countStrokesForRamp = 11 := by
  unfold Deeper.setSensation arduinoMap
  dsimp only
  rw [if_neg (by norm_num), ftrunc_zero]
  decide

/-- The inward target of `Deeper` with stroke 1000 and ramp length 11:
`slope = 1000 tdiv 11 = 90` steps per ramp position. -/
theorem deeper_target_even (s : DeeperState) (k : ℕ) (hs : s.stroke = 1000)
    (hc : s.countStrokesForRamp = 11) :
    (Deeper.nextTarget s (2 * k)).1.stroke =
      s.depth - 1000 + 90 * (((k : ℤ) % 11) + 1) := by
  rw [deeper_parity, if_neg (by omega)]
  unfold Deeper.amplitude Deeper.cycleIndex
  rw [hs, hc, show (2 * k) / 2 = k from by omega,
    show Int.tdiv 1000 11 = 90 from by decide]

/-- C7 counterexample: for `Deeper` with stroke = depth = 1000 and ramp length
11 (the sensation-0 value), the inward target peaks at 990 = depth − 10 on the
11th inward stroke (index 20) and never reaches depth = 1000 on any inward
stroke of the ramp: the integer division `1000 / 11 = 90` loses
`1000 − 11·90 = 10` steps.  The claim's "up to depth" is false. -/
theorem deeper_peak_below_depth :
    exDeeper.countStrokesForRamp = 11 ∧ exDeeper.stroke = 1000 ∧
    exDeeper.depth = 1000 ∧
    (Deeper.nextTarget exDeeper 20).1.stroke = 990 ∧
    (∀ k : ℕ, k < 11 →
      (Deeper.nextTarget exDeeper (2 * k)).1.stroke ≠ 1000) := by
  refine ⟨rfl, rfl, rfl, by decide, fun k hk => ?_⟩
  rw [deeper_target_even exDeeper k rfl rfl]
  have : ((k : ℤ) % 11) = (k : ℤ) := by omega
  rw [this, show exDeeper.depth = 1000 from rfl]
  omega

/-- C7 (amended): for `Deeper` with stroke 1000, sensation 0 gives
`_countStrokesForRamp = 11` (exactly), and over the 11 inward strokes of a
ramp cycle (even indices `0, 2, …, 20`) the target position strictly
increases, by `1000 tdiv 11 = 90` per stroke, from `depth − 910` up to a peak
of `depth − 10` — just short of `depth`, by the 10 steps lost to integer
division — and resets to the minimum on the next ramp cycle (index 22). -/
theorem deeper_ramp_amended :
    (∀ s : DeeperState, (Deeper.setSensation 0 s).countStrokesForRamp = 11) ∧
    (∀ s : DeeperState, s.stroke = 1000 → s.countStrokesForRamp = 11 →
      (∀ k : ℕ, k < 11 →
        (Deeper.nextTarget s (2 * k)).1.stroke =
          s.depth - 1000 + 90 * ((k : ℤ) + 1)) ∧
      (∀ k l : ℕ, k < l → l < 11 →
        (Deeper.nextTarget s (2 * k)).1.stroke <
          (Deeper.nextTarget s (2 * l)).1.stroke) ∧
      (Deeper.nextTarget s 20).1.stroke = s.depth - 10 ∧
      (Deeper.nextTarget s 22).1.stroke = (Deeper.nextTarget s 0).1.stroke) := by
  constructor
  · exact deeper_setSensation_zero
  · intro s hs hc
    have hform : ∀ k : ℕ, k < 11 →
        (Deeper.nextTarget s (2 * k)).1.stroke =
          s.depth - 1000 + 90 * ((k : ℤ) + 1) := by
      intro k hk
      rw [deeper_target_even s k hs hc, show ((k : ℤ) % 11) = (k : ℤ) from by omega]
    refine ⟨hform, fun k l hkl hl => ?_, ?_, ?_⟩
    · rw [hform k (hkl.trans hl), hform l hl]
      have : (k : ℤ) < (l : ℤ) := by exact_mod_cast hkl
      omega
    · rw [show (20 : ℕ) = 2 * 10 from rfl, hform 10 (by omega)]
      push_cast
      omega
    · rw [show (22 : ℕ) = 2 * 11 from rfl, show (0 : ℕ) = 2 * 0 from rfl,
        deeper_target_even s 11 hs hc, deeper_target_even s 0 hs hc]
      push_cast
      omega

/-- C7 witness: the amended ramp behavior at the concrete state (stroke =
depth = 1000, ramp length 11). -/
theorem deeper_ramp_amended_witness :
    (Deeper.setSensation 0 exDeeper).countStrokesForRamp = 11 ∧
    (Deeper.nextTarget exDeeper 20).1.stroke = exDeeper.depth - 10 ∧
    (Deeper.nextTarget exDeeper 0).1.stroke <
      (Deeper.nextTarget exDeeper 2).1.stroke :=
  ⟨deeper_ramp_amended.1 exDeeper,
   (deeper_ramp_amended.2 exDeeper rfl rfl).2.2.1,
   (deeper_ramp_amended.2 exDeeper rfl rfl).2.1 0 1 (by omega) (by omega)⟩

/-! ### Claim C8 -/

namespace TeasingPounding

def setSpeedLimit (a b c : ℕ) (s : TeasingPoundingState) : TeasingPoundingState :=
  { s with toPatternState := Pattern.setSpeedLimit a b c s.toPatternState }

end TeasingPounding

namespace RoboStroke

def setSpeedLimit (a b c : ℕ) (s : RoboStrokeState) : RoboStrokeState :=
  { s with toPatternState := Pattern.setSpeedLimit a b c s.toPatternState }

end RoboStroke

namespace HalfnHalf

def setSpeedLimit (a b c : ℕ) (s : HalfnHalfState) : HalfnHalfState :=
  { s with toPatternState := Pattern.setSpeedLimit a b c s.toPatternState }

end HalfnHalf

namespace Deeper

def setSpeedLimit (a b c : ℕ) (s : DeeperState) : DeeperState :=
  { s with toPatternState := Pattern.setSpeedLimit a b c s.toPatternState }

end Deeper

namespace StopNGo

def setSpeedLimit (a b c : ℕ) (s : StopNGoState) : StopNGoState :=
  { s with toPatternState := Pattern.setSpeedLimit a b c s.toPatternState }

end StopNGo

namespace Insist

def setSpeedLimit (a b c : ℕ) (s : InsistState) : InsistState :=
  { s with toPatternState := Pattern.setSpeedLimit a b c s.toPatternState }

end Insist

namespace Slammin

def setSpeedLimit (a b c : ℕ) (s : SlamminState) : SlamminState :=
  { s with toPatternState := Pattern.setSpeedLimit a b c s.toPatternState }

end Slammin

namespace Knot

def setSpeedLimit (a b c : ℕ) (s : KnotState) : KnotState :=
  { s with toPatternState := Pattern.setSpeedLimit a b c s.toPatternState }

end Knot

/-- C8: for every variant, the command returned by `nextTarget` is independent
of the values previously stored by `setSpeedLimit`: two calls on states
differing only in `maxSpeed`, `maxAcceleration`, `stepsPerMM` return identical
commands — the limits are stored but never read in any output formula. -/
theorem speed_limits_not_enforced :
    (∀ (a b c a' b' c' : ℕ) (s : PatternState) (i : ℕ),
      (SimpleStroke.nextTarget (Pattern.setSpeedLimit a b c s) i).1 =
      (SimpleStroke.nextTarget (Pattern.setSpeedLimit a' b' c' s) i).1) ∧
    (∀ (a b c a' b' c' : ℕ) (s : TeasingPoundingState) (i : ℕ),
      (TeasingPounding.nextTarget (TeasingPounding.setSpeedLimit a b c s) i).1 =
      (TeasingPounding.nextTarget (TeasingPounding.setSpeedLimit a' b' c' s) i).1) ∧
    (∀ (a b c a' b' c' : ℕ) (s : RoboStrokeState) (i : ℕ),
      (RoboStroke.nextTarget (RoboStroke.setSpeedLimit a b c s) i).1 =
      (RoboStroke.nextTarget (RoboStroke.setSpeedLimit a' b' c' s) i).1) ∧
    (∀ (a b c a' b' c' : ℕ) (s : HalfnHalfState) (i : ℕ),
      (HalfnHalf.nextTarget (HalfnHalf.setSpeedLimit a b c s) i).1 =
      (HalfnHalf.nextTarget (HalfnHalf.setSpeedLimit a' b' c' s) i).1) ∧
    (∀ (a b c a' b' c' : ℕ) (s : DeeperState) (i : ℕ),
      (Deeper.nextTarget (Deeper.setSpeedLimit a b c s) i).1 =
      (Deeper.nextTarget (Deeper.setSpeedLimit a' b' c' s) i).1) ∧
    (∀ (a b c a' b' c' : ℕ) (s : StopNGoState) (i : ℕ) (now : ℤ),
      (StopNGo.nextTarget (StopNGo.setSpeedLimit a b c s) i now).1 =
      (StopNGo.nextTarget (StopNGo.setSpeedLimit a' b' c' s) i now).1) ∧
    (∀ (a b c a' b' c' : ℕ) (s : InsistState) (i : ℕ),
      (Insist.nextTarget (Insist.setSpeedLimit a b c s) i).1 =
      (Insist.nextTarget (Insist.setSpeedLimit a' b' c' s) i).1) ∧
    (∀ (a b c a' b' c' : ℕ) (s : SlamminState) (i : ℕ) (d : Bool),
      (Slammin.nextTarget (Slammin.setSpeedLimit a b c s) i d).1 =
      (Slammin.nextTarget (Slammin.setSpeedLimit a' b' c' s) i d).1) ∧
    (∀ (a b c a' b' c' : ℕ) (s : KnotState) (i : ℕ) (d : Bool),
      (Knot.nextTarget (Knot.setSpeedLimit a b c s) i d).1 =
      (Knot.nextTarget (Knot.setSpeedLimit a' b' c' s) i d).1) :=
  ⟨fun _ _ _ _ _ _ _ _ => rfl,
   fun a b c a' b' c' s i => by
     unfold TeasingPounding.nextTarget TeasingPounding.setSpeedLimit
       Pattern.setSpeedLimit
     dsimp only,
   fun _ _ _ _ _ _ _ _ => rfl,
   fun a b c a' b' c' s i => by
     unfold HalfnHalf.nextTarget HalfnHalf.setSpeedLimit Pattern.setSpeedLimit
     dsimp only
     split_ifs <;> rfl,
   fun _ _ _ _ _ _ _ _ => rfl,
   fun a b c a' b' c' s i now => by
     unfold StopNGo.nextTarget StopNGo.setSpeedLimit Pattern.setSpeedLimit
     dsimp only
     split_ifs <;> rfl,
   fun _ _ _ _ _ _ _ _ => rfl,
   fun a b c a' b' c' s i d => by
     unfold Slammin.nextTarget Slammin.setSpeedLimit Pattern.setSpeedLimit
     dsimp only
     split_ifs <;> rfl,
   fun a b c a' b' c' s i d => by
     unfold Knot.nextTarget Knot.setSpeedLimit Pattern.setSpeedLimit
     dsimp only
     split_ifs <;> rfl⟩

/-! ### Claim C9 -/

theorem simpleStroke_skip_eq (s : PatternState) (i : ℕ) :
    (SimpleStroke.nextTarget s i).1.skip = s.nextMove.skip ∧
    (SimpleStroke.nextTarget s i).2.nextMove.skip = s.nextMove.skip :=
  ⟨rfl, rfl⟩

theorem teasingPounding_skip_eq (s : TeasingPoundingState) (i : ℕ) :
    (TeasingPounding.nextTarget s i).1.skip = s.nextMove.skip ∧
    (TeasingPounding.nextTarget s i).2.nextMove.skip = s.nextMove.skip := by
  unfold TeasingPounding.nextTarget
  dsimp only
  split_ifs <;> exact ⟨rfl, rfl⟩

theorem roboStroke_skip_eq (s : RoboStrokeState) (i : ℕ) :
    (RoboStroke.nextTarget s i).1.skip = s.nextMove.skip ∧
    (RoboStroke.nextTarget s i).2.nextMove.skip = s.nextMove.skip :=
  ⟨rfl, rfl⟩

theorem halfnHalf_skip_eq (s : HalfnHalfState) (i : ℕ) :
    (HalfnHalf.nextTarget s i).1.skip = s.nextMove.skip ∧
    (HalfnHalf.nextTarget s i).2.nextMove.skip = s.nextMove.skip := by
  unfold HalfnHalf.nextTarget
  dsimp only
  split_ifs <;> exact ⟨rfl, rfl⟩

theorem deeper_skip_eq (s : DeeperState) (i : ℕ) :
    (Deeper.nextTarget s i).1.skip = s.nextMove.skip ∧
    (Deeper.nextTarget s i).2.nextMove.skip = s.nextMove.skip :=
  ⟨rfl, rfl⟩

theorem insist_skip_eq (s : InsistState) (i : ℕ) :
    (Insist.nextTarget s i).1.skip = s.nextMove.skip ∧
    (Insist.nextTarget s i).2.nextMove.skip = s.nextMove.skip :=
  ⟨rfl, rfl⟩

/-- C9: the six variants `SimpleStroke`, `TeasingPounding`, `RoboStroke`,
`HalfnHalf`, `Deeper`, `Insist` never write the `skip` field: it is
initialized to `false` by the base class and every `nextTarget` call returns
it and passes it on unchanged — so every call from a reachable state returns
`skip = false`.  (Only `StopNGo`, `Slammin`, `Knot` set it.) -/
theorem six_variants_never_skip :
    (∀ (st dp : ℤ) (t : ℚ), (patternInit st dp t).nextMove.skip = false) ∧
    (∀ (s : PatternState) (i : ℕ), s.nextMove.skip = false →
      (SimpleStroke.nextTarget s i).1.skip = false ∧
      (SimpleStroke.nextTarget s i).2.nextMove.skip = false) ∧
    (∀ (s : TeasingPoundingState) (i : ℕ), s.nextMove.skip = false →
      (TeasingPounding.nextTarget s i).1.skip = false ∧
      (TeasingPounding.nextTarget s i).2.nextMove.skip = false) ∧
    (∀ (s : RoboStrokeState) (i : ℕ), s.nextMove.skip = false →
      (RoboStroke.nextTarget s i).1.skip = false ∧
      (RoboStroke.nextTarget s i).2.nextMove.skip = false) ∧
    (∀ (s : HalfnHalfState) (i : ℕ), s.nextMove.skip = false →
      (HalfnHalf.nextTarget s i).1.skip = false ∧
      (HalfnHalf.nextTarget s i).2.nextMove.skip = false) ∧
    (∀ (s : DeeperState) (i : ℕ), s.nextMove.skip = false →
      (Deeper.nextTarget s i).1.skip = false ∧
      (Deeper.nextTarget s i).2.nextMove.skip = false) ∧
    (∀ (s : InsistState) (i : ℕ), s.nextMove.skip = false →
      (Insist.nextTarget s i).1.skip = false ∧
      (Insist.nextTarget s i).2.nextMove.skip = false) :=
  ⟨fun _ _ _ => rfl,
   fun s i h => ⟨(simpleStroke_skip_eq s i).1.trans h,
     (simpleStroke_skip_eq s i).2.trans h⟩,
   fun s i h => ⟨(teasingPounding_skip_eq s i).1.trans h,
     (teasingPounding_skip_eq s i).2.trans h⟩,
   fun s i h => ⟨(roboStroke_skip_eq s i).1.trans h,
     (roboStroke_skip_eq s i).2.trans h⟩,
   fun s i h => ⟨(halfnHalf_skip_eq s i).1.trans h,
     (halfnHalf_skip_eq s i).2.trans h⟩,
   fun s i h => ⟨(deeper_skip_eq s i).1.trans h,
     (deeper_skip_eq s i).2.trans h⟩,
   fun s i h => ⟨(insist_skip_eq s i).1.trans h,
     (insist_skip_eq s i).2.trans h⟩⟩

/-- C9 witness: the six variants at concrete states (whose `skip` is the
base-class initializer `false`). -/
theorem six_variants_never_skip_witness :
    (SimpleStroke.nextTarget exPattern 5).1.skip = false ∧
    (TeasingPounding.nextTarget exTP 4).1.skip = false ∧
    (RoboStroke.nextTarget exRobo 5).1.skip = false ∧
    (HalfnHalf.nextTarget exHnH 3).1.skip = false ∧
    (Deeper.nextTarget exDeeper 1).1.skip = false ∧
    (Insist.nextTarget exInsist 1).1.skip = false :=
  ⟨(six_variants_never_skip.2.1 exPattern 5 rfl).1,
   (six_variants_never_skip.2.2.1 exTP 4 rfl).1,
   (six_variants_never_skip.2.2.2.1 exRobo 5 rfl).1,
   (six_variants_never_skip.2.2.2.2.1 exHnH 3 rfl).1,
   (six_variants_never_skip.2.2.2.2.2.1 exDeeper 1 rfl).1,
   (six_variants_never_skip.2.2.2.2.2.2 exInsist 1 rfl).1⟩

/-! ### Claim C10 -/

/-- The three configuration setters of `Insist` (all of which call
`_updateStrokeTiming`). -/
inductive InsistOp where
  | setStroke (stroke : ℤ)
  | setTimeOfStroke (speed : ℚ)
  | setSensation (sensation : ℚ)

def insistApply (s : InsistState) : InsistOp → InsistState
  | .setStroke n => Insist.setStroke n s
  | .setTimeOfStroke t => Insist.setTimeOfStroke t s
  | .setSensation q => Insist.setSensation q s

def insistApplyAll (s : InsistState) : List InsistOp → InsistState
  | [] => s
  | op :: ops => insistApplyAll (insistApply s op) ops

/-- A freshly constructed `Insist` (member initializers `_speed = 0`,
`_acceleration = 0`, `_realStroke = 0`, `_strokeFraction = 1.0`,
`_strokeInFront = false`, base `_nextMove = {0, 0, 0, false}`). -/
def insistInit (stroke depth : ℤ) (t : ℚ) : InsistState :=
  { toPatternState := patternInit stroke depth t, speed := 0,
    acceleration := 0, realStroke := 0, strokeFraction := 1,
    strokeInFront := false }

/-- With no intervening `nextTarget`, `_nextMove.speed` stays 0, so every
setter recomputes `_acceleration` as 0. -/
theorem insist_ops_keep_zero (ops : List InsistOp) :
    ∀ s : InsistState, s.nextMove.speed = 0 → s.acceleration = 0 →
    (insistApplyAll s ops).nextMove.speed = 0 ∧
      (insistApplyAll s ops).acceleration = 0 := by
  induction ops with
  | nil => exact fun s h1 h2 => ⟨h1, h2⟩
  | cons op ops ih =>
    intro s h1 h2
    refine ih _ ?_ ?_ <;>
      cases op <;>
      unfold insistApply Insist.setStroke Insist.setTimeOfStroke
        Insist.setSensation Insist.updateStrokeTiming <;>
      dsimp only <;>
      simp [h1, ftrunc_zero]

/-- C10: `Insist::_updateStrokeTiming` computes the stored acceleration from
`_nextMove.speed` — the speed of the command returned by the previous
`nextTarget` call — rather than from the freshly computed full-stroke
`_speed`; consequently, after construction and any sequence of
`setStroke`/`setTimeOfStroke`/`setSensation` calls with no intervening
`nextTarget`, the first `nextTarget` returns `acceleration = 0`. -/
theorem insist_stale_speed_acceleration :
    (∀ s : InsistState, (Insist.updateStrokeTiming s).acceleration =
      ftrunc (3.0 * (s.nextMove.speed : ℚ) /
              (s.timeOfStroke * s.strokeFraction))) ∧
    (∀ (stroke depth : ℤ) (t : ℚ) (ops : List InsistOp) (i : ℕ),
      (Insist.nextTarget (insistApplyAll (insistInit stroke depth t) ops)
        i).1.acceleration = 0) :=
  ⟨fun s => rfl,
   fun stroke depth t ops i =>
     (insist_ops_keep_zero ops (insistInit stroke depth t) rfl rfl).2⟩
